import Mathlib

/-!
Verification of the covid dashboard data pipeline (`dataproviders.py`,
`models.py`) against its natural-language specification.

Tables (`pandas.DataFrame`) are embedded shallowly: a table is a list of
column names together with a list of rows, a row being an association list
from column names to cells.  A cell is `Value.na` (NaN/NaT/missing),
a string, an integer, or a date.  Numeric columns (pandas dtype inference)
are the columns all of whose cells are integers or missing.  Fallible
dataframe operations return `Except PdError`; an `AttributeError` /
`KeyError` raised by the Python code becomes an `Except.error`, so an
operation that fails never produces a (partial) table.
-/

/-- Calendar date (the payload of a pandas `datetime64` cell). -/
structure Date where
  year : Int
  month : Nat
  day : Nat
deriving DecidableEq, Repr

/-- A dataframe cell: missing (NaN/NaT), a string, an integer, or a date. -/
inductive Value where
  | na : Value
  | str (s : String) : Value
  | int (n : Int) : Value
  | date (d : Date) : Value
deriving DecidableEq, Repr

/-- A dataframe row: association list from column name to cell. -/
abbrev Row := List (String × Value)

/-- Reading a cell; a column that is absent from the row reads as missing. -/
def getCell (r : Row) (c : String) : Value := (r.lookup c).getD Value.na

/-- Writing a cell in place (used for `fillna`, `to_datetime` and column
assignment on existing columns). -/
def setCell (r : Row) (c : String) (v : Value) : Row :=
  r.map (fun p => if p.1 = c then (c, v) else p)

/-- A dataframe: ordered column names plus rows. -/
structure Table where
  cols : List String
  rows : List Row
deriving DecidableEq, Repr

/-- The pandas exceptions raised by this code base, by Python class. -/
inductive PdError where
  | attributeError (msg : String)
  | keyError (msg : String)
  | typeError (msg : String)
  | valueError (msg : String)
deriving DecidableEq, Repr

/-- Equality of fallible results is decidable, so concrete pipeline runs
can be checked by evaluation. -/
instance {ε α : Type} [DecidableEq ε] [DecidableEq α] : DecidableEq (Except ε α) := fun x y =>
  match x, y with
  | .ok a, .ok b => decidable_of_iff (a = b) (by simp)
  | .error a, .error b => decidable_of_iff (a = b) (by simp)
  | .ok _, .error _ => isFalse (by simp)
  | .error _, .ok _ => isFalse (by simp)

/-- Is the cell an integer or missing?  (Summable under pandas dtype rules.) -/
def numericCell : Value → Bool
  | .int _ => true
  | .na => true
  | _ => false

/-- A column is numeric when every cell is an integer or missing — the
shallow counterpart of pandas dtype inference (`numeric_only=True` keeps
exactly these columns). -/
def numericCol (t : Table) (c : String) : Bool :=
  t.rows.all (fun r => numericCell (getCell r c))

/-- Integer content of a cell; missing cells contribute 0 (pandas `sum`
skips NaN). -/
def toIntOrZero : Value → Int
  | .int n => n
  | _ => 0

/-- Sum of a column over a list of rows (pandas `sum`, NaN-skipping). -/
def sumCol (rows : List Row) (c : String) : Int :=
  (rows.map (fun r => toIntOrZero (getCell r c))).sum

/-- The tuple of key cells of a row for the given key columns. -/
def keyTuple (ks : List String) (r : Row) : List Value :=
  ks.map (getCell r)

/-- Does the row have a missing cell among the key columns?  pandas
`groupby` drops such rows (`dropna=True`, the default). -/
def keyHasNA (ks : List String) (r : Row) : Bool :=
  (keyTuple ks r).any (fun v => v == Value.na)

/-- Deduplicate a list of group keys.  pandas orders group keys ascending;
no property below depends on the key order, so occurrence order is kept. -/
def dedupKeys {α : Type} [DecidableEq α] : List α → List α
  | [] => []
  | a :: as =>
    let r := dedupKeys as
    if a ∈ r then r else a :: r

/-- The aggregated (summed) columns of a grouping: the numeric non-key
columns (`sum(numeric_only=True)` keeps exactly these, and drops the
non-numeric non-key columns). -/
def aggColumns (t : Table) (ks : List String) : List String :=
  t.cols.filter (fun c => decide (c ∉ ks) && numericCol t c)

/-- The rows that take part in a grouping: pandas `groupby` drops the rows
with a missing group key (`dropna=True`, the default). -/
def validRows (t : Table) (ks : List String) : List Row :=
  t.rows.filter (fun r => !keyHasNA ks r)

/-- The output row of a grouping for one key tuple: the key cells followed
by the NaN-skipping sums of the aggregated columns over the rows with that
key. -/
def groupRow (t : Table) (ks : List String) (k : List Value) : Row :=
  ks.zip k ++ (aggColumns t ks).map (fun c =>
    (c, Value.int (sumCol ((validRows t ks).filter (fun r => keyTuple ks r == k)) c)))

/-- `CovidDataProvider.group_by` (dataproviders.py lines 252-283), at its
only used configuration `as_index=False, numeric_only=True`: checks the
grouping columns are present (else `AttributeError('Columns not in
dataset')`), drops rows with a missing group key, and emits one row per
distinct key tuple carrying the key cells followed by the NaN-skipping sums
of the numeric non-key columns. -/
def group_by (t : Table) (ks : List String) : Except PdError Table :=
  if ∀ c ∈ ks, c ∈ t.cols then
    .ok { cols := ks ++ aggColumns t ks,
          rows := (dedupKeys ((validRows t ks).map (keyTuple ks))).map (groupRow t ks) }
  else .error (.attributeError "Columns not in dataset")

/-- `DataFrame.drop(columns=cs)` with the columns known to be present
(each call site checks presence first, per the source). -/
def dropColumns (t : Table) (cs : List String) : Table :=
  { cols := t.cols.filter (fun c => decide (c ∉ cs)),
    rows := t.rows.map (fun r => r.filter (fun p => decide (p.1 ∉ cs))) }

/-- `pd.merge(L, R, on=ks, how='left')`: every left row is kept; a left row
is repeated once per matching right row (equal key tuple), padded with the
right non-key columns, or padded with NaN when no right row matches.  The
cleaned inputs of this program have disjoint non-key columns, so pandas
suffixing never fires and is not modelled. -/
def leftMerge (L R : Table) (ks : List String) : Table :=
  let padCols := R.cols.filter (fun c => decide (c ∉ ks))
  { cols := L.cols ++ padCols,
    rows := L.rows.flatMap (fun lr =>
      let ms := R.rows.filter (fun rr => keyTuple ks rr == keyTuple ks lr)
      if ms.isEmpty then [lr ++ padCols.map (fun c => (c, Value.na))]
      else ms.map (fun rr => lr ++ padCols.map (fun c => (c, getCell rr c)))) }

/-- `CovidDataProvider._MERGE_COLUMNS` (dataproviders.py line 11). -/
def MERGE_COLUMNS : List String := ["Date_of_publication", "Municipality_name"]

/-- `CovidDataProvider._drop_intermediary_rows` (lines 85-109):
`dataset.dropna(subset=['Municipality_name'], inplace=True)` — removes the
rows whose municipality name is missing; raises `KeyError` when the column
is absent (as its own docstring records). -/
def _drop_intermediary_rows (t : Table) : Except PdError Table :=
  if "Municipality_name" ∈ t.cols then
    .ok { cols := t.cols,
          rows := t.rows.filter (fun r => getCell r "Municipality_name" != Value.na) }
  else .error (.keyError "Municipality_name")

/-- Can `value + ' gemeente onbekend'` be computed by pandas?  String
concatenation propagates NaN; concatenating an integer or date to a string
raises `TypeError`. -/
def concatable : Value → Bool
  | .str _ => true
  | .na => true
  | _ => false

/-- One row of the fill of line 159:
`Municipality_name.fillna(Province + ' gemeente onbekend')`.  A present
municipality name is untouched; a missing one is replaced by the default
when the province is a string, and stays missing when the province is also
missing (`fillna` ignores a NaN fill value). -/
def fillRow (r : Row) : Row :=
  match getCell r "Municipality_name" with
  | .na =>
    match getCell r "Province" with
    | .str p => setCell r "Municipality_name" (.str (p ++ " gemeente onbekend"))
    | _ => r
  | _ => r

/-- `CovidDataProvider._fill_missing_municipalities` (lines 138-159):
checks the `Municipality_name` and `Province` columns are present (else
`AttributeError`), then fills missing municipality names with
`'<Province> gemeente onbekend'`.  pandas evaluates the fill series over
every row first, raising `TypeError` if any province cell is neither a
string nor missing; the error check is hoisted before the fill here, with
identical success/failure behaviour. -/
def _fill_missing_municipalities (t : Table) : Except PdError Table :=
  if "Municipality_name" ∈ t.cols then
    if "Province" ∈ t.cols then
      if t.rows.all (fun r => concatable (getCell r "Province")) then
        .ok { cols := t.cols, rows := t.rows.map fillRow }
      else .error (.typeError "can only concatenate str to str")
    else .error (.attributeError "No attribute Province")
  else .error (.attributeError "No attribute Municipality_name")

/-- Administrative columns dropped from the case/mortality table
(dataproviders.py lines 181-189). -/
def infColumnsToDrop : List String :=
  ["Version", "Date_of_report", "Municipality_code", "Security_region_code",
   "Security_region_name", "Municipal_health_service", "ROAZ_region"]

/-- Grouping columns of the case/mortality cleaning (line 190). -/
def infGroupingColumns : List String :=
  ["Date_of_publication", "Province", "Municipality_name"]

/-- `CovidDataProvider._clean_infections_and_mortalities_dataset`
(lines 161-200): fill missing municipalities, drop intermediary rows,
drop the administrative columns (checked present first), then group and
sum by (date, province, municipality). -/
def _clean_infections_and_mortalities_dataset (t : Table) : Except PdError Table := do
  let t1 ← _fill_missing_municipalities t
  let t2 ← _drop_intermediary_rows t1
  if ∀ c ∈ infColumnsToDrop, c ∈ t2.cols then
    if ∀ c ∈ infGroupingColumns, c ∈ (dropColumns t2 infColumnsToDrop).cols then
      group_by (dropColumns t2 infColumnsToDrop) infGroupingColumns
    else .error (.attributeError "grouping columns not in dataset")
  else .error (.attributeError "Columns to drop not in dataset")

/-- Administrative columns dropped from the admissions table
(lines 221-228). -/
def hosColumnsToDrop : List String :=
  ["Version", "Date_of_report", "Municipality_code", "Security_region_code",
   "Security_region_name", "Hospital_admission_notification"]

/-- `CovidDataProvider._clean_hospital_admissions_dataset` (lines 202-240):
drop intermediary rows, drop the administrative columns, then group and sum
by (date, municipality).  The table arrives with `Date_of_statistics`
already renamed to `Date_of_publication` by `_load_hospital_admissions`. -/
def _clean_hospital_admissions_dataset (t : Table) : Except PdError Table := do
  let t1 ← _drop_intermediary_rows t
  if ∀ c ∈ hosColumnsToDrop, c ∈ t1.cols then
    if ∀ c ∈ MERGE_COLUMNS, c ∈ (dropColumns t1 hosColumnsToDrop).cols then
      group_by (dropColumns t1 hosColumnsToDrop) MERGE_COLUMNS
    else .error (.attributeError "grouping columns not in dataset")
  else .error (.attributeError "Columns to drop not in dataset")

/-- Digits-to-number reading for date fields. -/
def digitsToNat (cs : List Char) : Nat :=
  cs.foldl (fun n c => 10 * n + (c.toNat - 48)) 0

/-- Strict ISO `YYYY-MM-DD` date parsing; the RIVM csv date columns use
exactly this format. -/
def parseDate (s : String) : Option Date :=
  match s.data with
  | [y1, y2, y3, y4, '-', m1, m2, '-', d1, d2] =>
    if ([y1, y2, y3, y4, m1, m2, d1, d2].all Char.isDigit) then
      let mn := digitsToNat [m1, m2]
      let dn := digitsToNat [d1, d2]
      if 1 ≤ mn && mn ≤ 12 && 1 ≤ dn && dn ≤ 31 then
        some ⟨(digitsToNat [y1, y2, y3, y4] : Nat), mn, dn⟩
      else none
    else none
  | _ => none

/-- One row of the `fillna(0)` of line 247: a missing hospital-admission
cell becomes 0, anything else is untouched. -/
def fillHARow (r : Row) : Row :=
  if getCell r "Hospital_admission" == Value.na then
    setCell r "Hospital_admission" (.int 0)
  else r

/-- `fillna(0)` on the `Hospital_admission` column (line 247); attribute
access on a missing column raises `AttributeError`. -/
def fillnaHospitalAdmission (t : Table) : Except PdError Table :=
  if "Hospital_admission" ∈ t.cols then
    .ok { cols := t.cols, rows := t.rows.map fillHARow }
  else .error (.attributeError "No attribute Hospital_admission")

/-- Is a cell acceptable to `pd.to_datetime`?  Missing stays NaT, a date
stays itself, a string must parse; integer cells do not occur in this
pipeline (csv date cells are strings) and are treated as a parse error. -/
def dateCellOk : Value → Bool
  | .na => true
  | .date _ => true
  | .str s => (parseDate s).isSome
  | .int _ => false

/-- Conversion of one cell by `pd.to_datetime` (assuming `dateCellOk`). -/
def convDate : Value → Value
  | .str s => match parseDate s with
    | some d => .date d
    | none => .na
  | v => v

/-- `pd.to_datetime(covid_dataset.Date_of_publication)` (line 248):
converts the date column to datetime, raising on an unparseable cell.
The all-cells check is hoisted before the map, with identical
success/failure behaviour to pandas' raise-on-first-bad-cell. -/
def toDatetimeDateCol (t : Table) : Except PdError Table :=
  if "Date_of_publication" ∈ t.cols then
    if t.rows.all (fun r => dateCellOk (getCell r "Date_of_publication")) then
      .ok { cols := t.cols,
            rows := t.rows.map (fun r =>
              setCell r "Date_of_publication" (convDate (getCell r "Date_of_publication"))) }
    else .error (.valueError "Unknown datetime string format")
  else .error (.attributeError "No attribute Date_of_publication")

/-- Full English month name, as `strftime('%B')` renders it. -/
def monthName : Nat → String
  | 1 => "January"
  | 2 => "February"
  | 3 => "March"
  | 4 => "April"
  | 5 => "May"
  | 6 => "June"
  | 7 => "July"
  | 8 => "August"
  | 9 => "September"
  | 10 => "October"
  | 11 => "November"
  | 12 => "December"
  | _ => ""

/-- Four-digit zero-padded year, as `strftime('%Y')` renders it for the
common-era years of this dataset. -/
def yearStr (y : Int) : String :=
  let n := y.toNat
  (if n < 10 then "000" else if n < 100 then "00" else if n < 1000 then "0" else "")
    ++ toString n

/-- `df[name] = values` for a fresh derived column: appends the column and
extends every row with the value computed from that row. -/
def setColumn (t : Table) (c : String) (f : Row → Value) : Table :=
  { cols := t.cols ++ [c],
    rows := t.rows.map (fun r => r ++ [(c, f r)]) }

/-- The `Year` cell derived from the datetime column by `strftime('%Y')`
(NaT renders as NaN). -/
def yearCell (r : Row) : Value :=
  match getCell r "Date_of_publication" with
  | .date d => .str (yearStr d.year)
  | _ => .na

/-- The `Month` cell derived from the datetime column by `strftime('%B')`. -/
def monthCell (r : Row) : Value :=
  match getCell r "Date_of_publication" with
  | .date d => .str (monthName d.month)
  | _ => .na

/-- `CovidDataProvider._clean_covid_dataset` (lines 242-250).  Line 246
calls `group_by(covid_dataset, MERGE_COLUMNS)` but does not assign the
result back (unlike every other `group_by` call site), so only its column
check and possible error survive; the dataset then gets its missing
hospital admissions set to 0, its date column parsed, and derived `Year`
and `Month` columns. -/
def _clean_covid_dataset (t : Table) : Except PdError Table := do
  let _ ← group_by t MERGE_COLUMNS
  let t1 ← fillnaHospitalAdmission t
  let t2 ← toDatetimeDateCol t1
  .ok (setColumn (setColumn t2 "Year" yearCell) "Month" monthCell)

/-- `CovidDataProvider._build_covid_dataset` (lines 111-136): checks the
merge columns on both raw tables (else `AttributeError`), cleans each
table, left-merges them on (date, municipality), and post-processes the
merged dataset. -/
def _build_covid_dataset (inf hos : Table) : Except PdError Table :=
  if ∀ c ∈ MERGE_COLUMNS, c ∈ inf.cols then
    if ∀ c ∈ MERGE_COLUMNS, c ∈ hos.cols then do
      let inf2 ← _clean_infections_and_mortalities_dataset inf
      let hos2 ← _clean_hospital_admissions_dataset hos
      _clean_covid_dataset (leftMerge inf2 hos2 MERGE_COLUMNS)
    else .error (.attributeError "Merge columns not present on hospital_admissions")
  else .error (.attributeError "Merge columns not present on infections and mortalities")

/-- `CovidDataProvider.filter_by_year` (lines 285-309): checks the date
column exists (else `AttributeError`), then keeps the rows whose datetime
cell has the requested year (a non-date cell never matches, as a NaT year
comparison is false). -/
def filter_by_year (t : Table) (year : Int) : Except PdError Table :=
  if "Date_of_publication" ∈ t.cols then
    .ok { cols := t.cols,
          rows := t.rows.filter (fun r =>
            match getCell r "Date_of_publication" with
            | .date d => d.year == year
            | _ => false) }
  else .error (.attributeError "No attribute Date_of_publication")

/-- Lower-casing of a string (`str.lower()` / `String.lower`). -/
def strLower (s : String) : String := ⟨s.data.map Char.toLower⟩

/-- `CovidDataProvider.filter_by_province` (lines 311-335): checks the
province column exists (else `AttributeError`), then keeps the rows with
`Province.str.lower() == province.lower()`; `.str.lower()` yields NaN on a
non-string cell, which never compares equal. -/
def filter_by_province (t : Table) (province : String) : Except PdError Table :=
  if "Province" ∈ t.cols then
    .ok { cols := t.cols,
          rows := t.rows.filter (fun r =>
            match getCell r "Province" with
            | .str s => strLower s == strLower province
            | _ => false) }
  else .error (.attributeError "No attribute Province")

/-- Lexicographic order on dates, as a boolean (`from_date <= d`). -/
def dateLe (a b : Date) : Bool :=
  a.year < b.year
    || (a.year == b.year
        && (a.month < b.month || (a.month == b.month && a.day ≤ b.day)))

/-- A date-indexed dataframe (`models.py` works on frames indexed by
`Date_of_publication` after `set_index`). -/
structure Frame where
  cols : List String
  rows : List (Date × Row)
deriving DecidableEq, Repr

/-- The union of two frames' column sets, first frame's columns first. -/
def unionCols (A B : Frame) : List String :=
  A.cols ++ B.cols.filter (fun c => decide (c ∉ A.cols))

/-- `pd.concat([A, B])` on date-indexed frames: rows of `A` then rows of
`B`; the column set is the union (first frame's columns first) and a row
reads NaN in a column its source frame lacks. -/
def concatFrames (A B : Frame) : Frame :=
  { cols := unionCols A B,
    rows := (A.rows ++ B.rows).map
      (fun p => (p.1, (unionCols A B).map (fun c => (c, getCell p.2 c)))) }

/-- `A.join(B)` on date-indexed frames (left join on the index): every row
of `A` is kept, extended with `B`'s columns from the row of `B` with the
same index date, or with NaN when `B` has none; a row of `A` is repeated
once per matching row of `B`.  The joined frames of this program have
disjoint columns, so pandas overlap suffixing never fires. -/
def joinFrames (A B : Frame) : Frame :=
  { cols := A.cols ++ B.cols,
    rows := A.rows.flatMap (fun p =>
      if (B.rows.filter (fun q => q.1 == p.1)).isEmpty then
        [(p.1, p.2 ++ B.cols.map (fun c => (c, Value.na)))]
      else (B.rows.filter (fun q => q.1 == p.1)).map
        (fun q => (p.1, p.2 ++ B.cols.map (fun c => (c, getCell q.2 c))))) }

/-- `pd.DataFrame(index=forecast.row_labels, data=forecast.predicted_mean)`:
the forecast as a one-column frame named `predicted_mean` (the statsmodels
series name, distinct from the historical metric column). -/
def forecastFrame (row_labels : List Date) (predicted_mean : List Value) : Frame :=
  { cols := ["predicted_mean"],
    rows := (row_labels.zip predicted_mean).map (fun p => (p.1, [("predicted_mean", p.2)])) }

/-- `forecast.conf_int(alpha=0.45)` as a date-indexed frame; statsmodels
names the bound columns `lower <prop>` / `upper <prop>`. -/
def confFrame (prop : String) (row_labels : List Date) (conf_lo conf_hi : List Value) : Frame :=
  { cols := ["lower " ++ prop, "upper " ++ prop],
    rows := (row_labels.zip (conf_lo.zip conf_hi)).map (fun p =>
      (p.1, [("lower " ++ prop, p.2.1), ("upper " ++ prop, p.2.2)])) }

set_option linter.unusedVariables false in
/-- `CovidArimaModel.get_prediction` (models.py lines 22-36).  The fitting
and forecasting of the numeric library
(`ARIMA(df[prop], order=(4,1,4)).fit().get_forecast(days_to_forecast)`)
enters as parameters: the forecast index `row_labels`, the point forecasts
`predicted_mean` and the `conf_int(alpha=0.45)` bounds `conf_lo`,
`conf_hi`.  The dataframe assembly is the source's: `concat` the
`predicted_mean` frame under the historical frame, `join` the
confidence-interval frame on the date index, and keep the rows dated on or
after `from_date` (`days_to_forecast` only parametrises the library call
that produces `row_labels`). -/
def get_prediction (df : Frame) (prop : String) (from_date : Date)
    (days_to_forecast : Nat) (row_labels : List Date)
    (predicted_mean conf_lo conf_hi : List Value) : Frame :=
  { cols := (joinFrames (concatFrames df (forecastFrame row_labels predicted_mean))
      (confFrame prop row_labels conf_lo conf_hi)).cols,
    rows := ((joinFrames (concatFrames df (forecastFrame row_labels predicted_mean))
      (confFrame prop row_labels conf_lo conf_hi)).rows).filter
        (fun p => dateLe from_date p.1) }

/-- Spec-side observable for the groupBy associativity property: the total
of column `c` over the rows of `t` whose key tuple at `ks` is `k`. -/
def colTotalFor (t : Table) (ks : List String) (k : List Value) (c : String) : Int :=
  sumCol (t.rows.filter (fun r => keyTuple ks r == k)) c

/-- Spec-side predicate for filterByRegion: the cell is a region name equal
to the argument under case-insensitive comparison (and nothing else — no
substring or fuzzy matching). -/
def matchesProvinceCI (province : String) (v : Value) : Bool :=
  match v with
  | .str s => strLower s == strLower province
  | _ => false

/-- The merge step of `_build_covid_dataset` (line 135) followed by the
admission default-fill of `_clean_covid_dataset` (line 247): left-outer
join of the cleaned case table with the cleaned admissions table on
(date, municipality), with missing hospital admissions set to 0.  The
later steps of `_clean_covid_dataset` (date parsing, derived columns) do
not touch the merge keys or the admission values. -/
def mergeFill (ct adm : Table) : Except PdError Table :=
  fillnaHospitalAdmission (leftMerge ct adm MERGE_COLUMNS)

/-- The fill / drop / group-and-sum portion of
`_clean_infections_and_mortalities_dataset` (lines 178-179 and 200) — the
three cleaning steps named by the spec's concrete scenario, whose sample
table carries only the four data columns (the administrative column drop
of lines 181-195 is vacuous for it). -/
def caseCleanCore (t : Table) : Except PdError Table := do
  let t1 ← _fill_missing_municipalities t
  let t2 ← _drop_intermediary_rows t1
  group_by t2 infGroupingColumns

/-- The spec scenario's case table: one named-municipality row and one
intermediate row (missing municipality) on the same date and province. -/
def scenarioCaseTable : Table :=
  { cols := ["Date_of_publication", "Province", "Municipality_name", "Total_reported"],
    rows :=
      [[("Date_of_publication", .str "2021-01-01"), ("Province", .str "Utrecht"),
        ("Municipality_name", .str "Utrecht city"), ("Total_reported", .int 10)],
       [("Date_of_publication", .str "2021-01-01"), ("Province", .str "Utrecht"),
        ("Municipality_name", .na), ("Total_reported", .int 5)]] }

/-- A raw case/mortality table (full source schema) in which municipality
name "Aa" occurs in two different provinces on the same date. -/
def infDup : Table :=
  { cols := ["Date_of_publication", "Municipality_name", "Province", "Version",
             "Date_of_report", "Municipality_code", "Security_region_code",
             "Security_region_name", "Municipal_health_service", "ROAZ_region",
             "Total_reported", "Deceased"],
    rows :=
      [[("Date_of_publication", .str "2021-01-01"), ("Municipality_name", .str "Aa"),
        ("Province", .str "P1"), ("Version", .int 1), ("Date_of_report", .str "x"),
        ("Municipality_code", .str "GM1"), ("Security_region_code", .str "VR1"),
        ("Security_region_name", .str "SR"), ("Municipal_health_service", .str "GGD"),
        ("ROAZ_region", .str "R"), ("Total_reported", .int 10), ("Deceased", .int 1)],
       [("Date_of_publication", .str "2021-01-01"), ("Municipality_name", .str "Aa"),
        ("Province", .str "P2"), ("Version", .int 1), ("Date_of_report", .str "x"),
        ("Municipality_code", .str "GM2"), ("Security_region_code", .str "VR2"),
        ("Security_region_name", .str "SR"), ("Municipal_health_service", .str "GGD"),
        ("ROAZ_region", .str "R"), ("Total_reported", .int 20), ("Deceased", .int 2)]] }

/-- A raw hospital-admissions table (full source schema, date column
already renamed by the loader) with one admission row for (2021-01-01,
"Aa"). -/
def hosDup : Table :=
  { cols := ["Date_of_publication", "Municipality_name", "Version",
             "Date_of_report", "Municipality_code", "Security_region_code",
             "Security_region_name", "Hospital_admission_notification",
             "Hospital_admission"],
    rows :=
      [[("Date_of_publication", .str "2021-01-01"), ("Municipality_name", .str "Aa"),
        ("Version", .int 1), ("Date_of_report", .str "x"),
        ("Municipality_code", .str "GM1"), ("Security_region_code", .str "VR1"),
        ("Security_region_name", .str "SR"), ("Hospital_admission_notification", .int 3),
        ("Hospital_admission", .int 7)]] }

/-- A raw case/mortality table exercising the fill (row with missing
municipality and known province) and the drop (row with missing
municipality and missing province). -/
def infW : Table :=
  { cols := ["Date_of_publication", "Municipality_name", "Province", "Version",
             "Date_of_report", "Municipality_code", "Security_region_code",
             "Security_region_name", "Municipal_health_service", "ROAZ_region",
             "Total_reported", "Deceased"],
    rows :=
      [[("Date_of_publication", .str "2021-01-01"), ("Municipality_name", .str "Utrecht city"),
        ("Province", .str "Utrecht"), ("Version", .int 1), ("Date_of_report", .str "x"),
        ("Municipality_code", .str "GM1"), ("Security_region_code", .str "VR1"),
        ("Security_region_name", .str "SR"), ("Municipal_health_service", .str "GGD"),
        ("ROAZ_region", .str "R"), ("Total_reported", .int 10), ("Deceased", .int 1)],
       [("Date_of_publication", .str "2021-01-01"), ("Municipality_name", .na),
        ("Province", .str "Utrecht"), ("Version", .int 1), ("Date_of_report", .str "x"),
        ("Municipality_code", .str "GM0"), ("Security_region_code", .str "VR0"),
        ("Security_region_name", .str "SR"), ("Municipal_health_service", .str "GGD"),
        ("ROAZ_region", .str "R"), ("Total_reported", .int 5), ("Deceased", .int 0)],
       [("Date_of_publication", .str "2021-01-02"), ("Municipality_name", .na),
        ("Province", .na), ("Version", .int 1), ("Date_of_report", .str "x"),
        ("Municipality_code", .na), ("Security_region_code", .na),
        ("Security_region_name", .na), ("Municipal_health_service", .na),
        ("ROAZ_region", .na), ("Total_reported", .int 3), ("Deceased", .int 0)]] }

/-- A raw hospital-admissions table matching one key of `infW`. -/
def hosW : Table :=
  { cols := ["Date_of_publication", "Municipality_name", "Version",
             "Date_of_report", "Municipality_code", "Security_region_code",
             "Security_region_name", "Hospital_admission_notification",
             "Hospital_admission"],
    rows :=
      [[("Date_of_publication", .str "2021-01-01"), ("Municipality_name", .str "Utrecht city"),
        ("Version", .int 1), ("Date_of_report", .str "x"),
        ("Municipality_code", .str "GM1"), ("Security_region_code", .str "VR1"),
        ("Security_region_name", .str "SR"), ("Hospital_admission_notification", .int 3),
        ("Hospital_admission", .int 7)]] }

/-- The covid dataset built from `infW` and `hosW`. -/
def outW : Table := ((_build_covid_dataset infW hosW).toOption).getD ⟨[], []⟩

/-- A raw case/mortality table whose municipality name is the empty
string — present (not missing), but empty. -/
def infEmpty : Table :=
  { cols := ["Date_of_publication", "Municipality_name", "Province", "Version",
             "Date_of_report", "Municipality_code", "Security_region_code",
             "Security_region_name", "Municipal_health_service", "ROAZ_region",
             "Total_reported", "Deceased"],
    rows :=
      [[("Date_of_publication", .str "2021-01-01"), ("Municipality_name", .str ""),
        ("Province", .str "P1"), ("Version", .int 1), ("Date_of_report", .str "x"),
        ("Municipality_code", .str "GM1"), ("Security_region_code", .str "VR1"),
        ("Security_region_name", .str "SR"), ("Municipal_health_service", .str "GGD"),
        ("ROAZ_region", .str "R"), ("Total_reported", .int 1), ("Deceased", .int 0)]] }

/-- A raw hospital-admissions table with no matching key for `infEmpty`. -/
def hosEmpty : Table :=
  { cols := ["Date_of_publication", "Municipality_name", "Version",
             "Date_of_report", "Municipality_code", "Security_region_code",
             "Security_region_name", "Hospital_admission_notification",
             "Hospital_admission"],
    rows :=
      [[("Date_of_publication", .str "2021-01-02"), ("Municipality_name", .str "Bb"),
        ("Version", .int 1), ("Date_of_report", .str "x"),
        ("Municipality_code", .str "GM9"), ("Security_region_code", .str "VR9"),
        ("Security_region_name", .str "SR"), ("Hospital_admission_notification", .int 0),
        ("Hospital_admission", .int 2)]] }

/-- The projection of a grouped key tuple onto a subset of the key
columns (reading the key cells back out of the zipped key row). -/
def subKey (S T : List String) (kt : List Value) : List Value :=
  S.map (fun s => ((T.zip kt).lookup s).getD Value.na)

/-- The single output row that the left merge on (date, municipality)
produces for one case row when the admissions keys are duplicate-free: the
case row extended with the admissions table's non-key columns, read from
the admission row with the same key, or missing when there is none. -/
def mergedRow (adm : Table) (lr : Row) : Row :=
  lr ++ (adm.cols.filter (fun c => decide (c ∉ MERGE_COLUMNS))).map (fun c =>
    (c, match adm.rows.find?
          (fun ar => keyTuple MERGE_COLUMNS ar == keyTuple MERGE_COLUMNS lr) with
        | some ar => getCell ar c
        | none => Value.na))

/-- A cleaned-form case table: two rows with distinct
(date, municipality) keys and no admission column. -/
def ctW2 : Table :=
  { cols := ["Date_of_publication", "Province", "Municipality_name", "Total_reported"],
    rows :=
      [[("Date_of_publication", .str "2021-01-01"), ("Province", .str "P1"),
        ("Municipality_name", .str "Aa"), ("Total_reported", .int 10)],
       [("Date_of_publication", .str "2021-01-02"), ("Province", .str "P1"),
        ("Municipality_name", .str "Bb"), ("Total_reported", .int 5)]] }

/-- A cleaned-form admissions table matching one key of `ctW2`. -/
def admW2 : Table :=
  { cols := ["Date_of_publication", "Municipality_name", "Hospital_admission"],
    rows :=
      [[("Date_of_publication", .str "2021-01-01"),
        ("Municipality_name", .str "Aa"), ("Hospital_admission", .int 7)]] }

/-- The merged-and-filled table built from `ctW2` and `admW2`. -/
def outW2 : Table := ((mergeFill ctW2 admW2).toOption).getD ⟨[], []⟩

/-- The cleaned case table of `infDup`: municipality "Aa" under two
provinces on the same date, so the merge key (date, municipality)
repeats. -/
def ctDup : Table :=
  ((_clean_infections_and_mortalities_dataset infDup).toOption).getD ⟨[], []⟩

/-- The cleaned admissions table of `hosDup`. -/
def admDup : Table :=
  ((_clean_hospital_admissions_dataset hosDup).toOption).getD ⟨[], []⟩

/-- A two-day historical daily series for the forecast metric. -/
def dfW : Frame :=
  { cols := ["Total_reported"],
    rows := [(⟨2022, 12, 30⟩, [("Total_reported", .int 5)]),
             (⟨2022, 12, 31⟩, [("Total_reported", .int 8)])] }

/-- The empty table: no columns, no rows. -/
def emptyTable : Table := ⟨[], []⟩

/-- A one-column region table with mixed-case names and a missing cell. -/
def provTable : Table :=
  { cols := ["Province"],
    rows := [[("Province", .str "UTREcht")],
             [("Province", .str "Holland")],
             [("Province", .na)]] }

/-- A table with one row whose municipality and province are both
missing, next to one fully named row. -/
def bothNullTable : Table :=
  { cols := ["Date_of_publication", "Municipality_name", "Province"],
    rows := [[("Date_of_publication", .str "2021-01-01"),
              ("Municipality_name", .na), ("Province", .na)],
             [("Date_of_publication", .str "2021-01-01"),
              ("Municipality_name", .str "Aa"), ("Province", .str "P1")]] }

/-- The row of `bothNullTable` with both cells missing. -/
def bothNullRow : Row :=
  [("Date_of_publication", .str "2021-01-01"),
   ("Municipality_name", .na), ("Province", .na)]

/-- `bothNullTable` after the municipality fill step. -/
def bothNullFilled : Table :=
  ((_fill_missing_municipalities bothNullTable).toOption).getD ⟨[], []⟩

/-- `bothNullFilled` after the intermediary-row drop step. -/
def bothNullDropped : Table :=
  ((_drop_intermediary_rows bothNullFilled).toOption).getD ⟨[], []⟩

/-- A table whose second grouping column is numeric: grouping by
`["a", "b"]` turns `b` into a key, while grouping by `["a"]` directly sums
it. -/
def assocTable : Table :=
  { cols := ["a", "b", "v"],
    rows := [[("a", .str "x"), ("b", .int 1), ("v", .int 10)],
             [("a", .str "x"), ("b", .int 1), ("v", .int 20)]] }

/-- A table with a missing cell in a grouping column: grouping by
`["a", "b"]` drops the row, grouping by `["a"]` directly keeps it. -/
def assocTableNA : Table :=
  { cols := ["a", "b", "v"],
    rows := [[("a", .str "x"), ("b", .na), ("v", .int 10)]] }

/-- A table with string key columns and one numeric metric column, on
which the two-step and direct groupings agree. -/
def assocW : Table :=
  { cols := ["a", "b", "v"],
    rows := [[("a", .str "x"), ("b", .str "y"), ("v", .int 10)],
             [("a", .str "x"), ("b", .str "z"), ("v", .int 20)]] }

/-- `assocW` grouped by `["a", "b"]`. -/
def assocW1 : Table := ((group_by assocW ["a", "b"]).toOption).getD ⟨[], []⟩

/-- `assocW1` re-grouped by `["a"]`. -/
def assocW2 : Table := ((group_by assocW1 ["a"]).toOption).getD ⟨[], []⟩

/-- `assocW` grouped by `["a"]` directly. -/
def assocWdir : Table := ((group_by assocW ["a"]).toOption).getD ⟨[], []⟩

/-- Inversion of a successful `Except` bind. -/
theorem except_bind_ok {ε α β : Type} {x : Except ε α} {f : α → Except ε β} {b : β}
    (h : (x >>= f) = .ok b) : ∃ a, x = .ok a ∧ f a = .ok b := by
  cases x with
  | ok a => exact ⟨a, rfl, h⟩
  | error e => simp [Bind.bind, Except.bind] at h

/-- Membership is preserved by key deduplication. -/
theorem mem_dedupKeys {α : Type} [DecidableEq α] (l : List α) :
    ∀ a, a ∈ dedupKeys l ↔ a ∈ l := by
  induction l with
  | nil => intro a; simp [dedupKeys]
  | cons b bs ih =>
    intro a
    simp only [dedupKeys, List.mem_cons]
    by_cases hb : b ∈ dedupKeys bs
    · rw [if_pos hb, ih a]
      constructor
      · exact Or.inr
      · rintro (rfl | h)
        · exact (ih a).mp hb
        · exact h
    · rw [if_neg hb]
      simp [List.mem_cons, ih a]

/-- Key deduplication yields a duplicate-free list. -/
theorem nodup_dedupKeys {α : Type} [DecidableEq α] (l : List α) :
    (dedupKeys l).Nodup := by
  induction l with
  | nil => simp [dedupKeys]
  | cons b bs ih =>
    simp only [dedupKeys]
    by_cases hb : b ∈ dedupKeys bs
    · rw [if_pos hb]; exact ih
    · rw [if_neg hb]; exact List.nodup_cons.mpr ⟨hb, ih⟩

/-- Looking a key column up in the zip of the key columns with a row's key
tuple reads the row's cell. -/
theorem lookup_zip_keyTuple {ks : List String} {r : Row} {s : String}
    (h : s ∈ ks) : (ks.zip (keyTuple ks r)).lookup s = some (getCell r s) := by
  induction ks with
  | nil => cases h
  | cons k ks ih =>
    simp only [keyTuple, List.map_cons, List.zip_cons_cons, List.lookup]
    by_cases hk : s = k
    · subst hk; simp
    · have hs : s ∈ ks := by
        cases List.mem_cons.mp h with
        | inl h1 => exact absurd h1 hk
        | inr h2 => exact h2
      rw [beq_false_of_ne hk]
      simpa [keyTuple] using ih hs

/-- Looking up a key in a pair list built by mapping over the keys. -/
theorem lookup_map_pair {α β : Type} [BEq α] [LawfulBEq α] (f : α → β)
    {l : List α} {a : α} (h : a ∈ l) :
    (l.map (fun c => (c, f c))).lookup a = some (f a) := by
  induction l with
  | nil => cases h
  | cons b bs ih =>
    simp only [List.map_cons, List.lookup]
    by_cases hb : a = b
    · subst hb; simp
    · rw [beq_false_of_ne hb]
      exact ih (by cases List.mem_cons.mp h with
        | inl h1 => exact absurd h1 hb
        | inr h2 => exact h2)

/-- A lookup that succeeds on the left part of an appended list succeeds
unchanged on the whole. -/
theorem lookup_append_left {α β : Type} [BEq α] {l1 l2 : List (α × β)} {a : α} {b : β}
    (h : l1.lookup a = some b) : (l1 ++ l2).lookup a = some b := by
  induction l1 with
  | nil => simp [List.lookup] at h
  | cons p l1 ih =>
    obtain ⟨k, v⟩ := p
    simp only [List.cons_append, List.lookup] at h ⊢
    cases hak : a == k with
    | true => rw [hak] at h; exact h
    | false => rw [hak] at h; exact ih h

/-- A lookup whose key is absent from the left part of an appended list
falls through to the right part. -/
theorem lookup_append_right {α β : Type} [BEq α] [LawfulBEq α] {l1 l2 : List (α × β)} {a : α}
    (h : ∀ p ∈ l1, a ≠ p.1) : (l1 ++ l2).lookup a = l2.lookup a := by
  induction l1 with
  | nil => simp
  | cons p l1 ih =>
    obtain ⟨k, v⟩ := p
    simp only [List.cons_append, List.lookup]
    rw [beq_false_of_ne (h (k, v) (List.mem_cons_self (k, v) l1))]
    exact ih (fun q hq => h q (List.mem_cons_of_mem (k, v) hq))

/-- A lookup over keys all different from the requested one fails. -/
theorem lookup_eq_none {α β : Type} [BEq α] [LawfulBEq α] {l : List (α × β)} {a : α}
    (h : ∀ p ∈ l, a ≠ p.1) : l.lookup a = none := by
  induction l with
  | nil => rfl
  | cons p l ih =>
    obtain ⟨k, v⟩ := p
    simp only [List.lookup]
    rw [beq_false_of_ne (h (k, v) (List.mem_cons_self (k, v) l))]
    exact ih (fun q hq => h q (List.mem_cons_of_mem (k, v) hq))

/-- Summing over a filter by a disjunction of disjoint predicates splits
into the two filtered sums. -/
theorem sum_filter_or_disjoint {α : Type} (f : α → Int) (A B : α → Bool)
    (hAB : ∀ x, ¬(A x = true ∧ B x = true)) :
    ∀ l : List α,
      ((l.filter (fun x => A x || B x)).map f).sum
        = ((l.filter A).map f).sum + ((l.filter B).map f).sum := by
  intro l
  induction l with
  | nil => simp
  | cons a l ih =>
    by_cases hA : A a = true
    · have hB : B a = false := by
        cases hb : B a with
        | false => rfl
        | true => exact absurd ⟨hA, hb⟩ (hAB a)
      simp [List.filter_cons, hA, hB, ih]
      omega
    · have hA' : A a = false := by simpa using hA
      by_cases hB : B a = true
      · simp [List.filter_cons, hA', hB, ih]
        omega
      · have hB' : B a = false := by simpa using hB
        simp [List.filter_cons, hA', hB', ih]

/-- Partitioning a sum over a duplicate-free list of group keys: summing
the per-key group totals over the keys satisfying `P` equals summing `f`
over the elements whose key satisfies `P` and lies in the key list. -/
theorem sum_partition {α κ : Type} [BEq κ] [LawfulBEq κ] [DecidableEq κ]
    (key : α → κ) (f : α → Int) (P : κ → Bool) :
    ∀ K : List κ, K.Nodup → ∀ l : List α,
      ((K.filter P).map (fun k => ((l.filter (fun x => key x == k)).map f).sum)).sum
        = ((l.filter (fun x => P (key x) && decide (key x ∈ K))).map f).sum := by
  intro K
  induction K with
  | nil => intro _ l; simp
  | cons k0 K ih =>
    intro hnd l
    have hk0 : k0 ∉ K := (List.nodup_cons.mp hnd).1
    have hKnd : K.Nodup := (List.nodup_cons.mp hnd).2
    by_cases hP : P k0 = true
    · rw [List.filter_cons_of_pos (by simpa using hP), List.map_cons, List.sum_cons, ih hKnd l]
      have hsplit : l.filter (fun x => P (key x) && decide (key x ∈ k0 :: K))
          = l.filter (fun x => (key x == k0) || (P (key x) && decide (key x ∈ K))) := by
        apply List.filter_congr
        intro x _
        by_cases hxk : key x = k0
        · simp [hxk, hP]
        · simp [hxk, List.mem_cons, beq_false_of_ne hxk]
      rw [hsplit, sum_filter_or_disjoint f _ _ ?hdisj l]
      case hdisj =>
        intro x hx
        have h1 : key x = k0 := by simpa using hx.1
        have h2 : key x ∈ K := by
          have := hx.2
          simp at this
          exact this.2
        exact hk0 (h1 ▸ h2)
    · have hP' : P k0 = false := by simpa using hP
      rw [List.filter_cons_of_neg (by simp [hP']), ih hKnd l]
      have : l.filter (fun x => P (key x) && decide (key x ∈ k0 :: K))
          = l.filter (fun x => P (key x) && decide (key x ∈ K)) := by
        apply List.filter_congr
        intro x _
        by_cases hxk : key x = k0
        · simp [hxk, hP']
        · simp [hxk, List.mem_cons]
      rw [this]

/-- Partitioning a sum over the deduplicated keys of the list itself. -/
theorem sum_partition_dedup {α κ : Type} [BEq κ] [LawfulBEq κ] [DecidableEq κ]
    (key : α → κ) (f : α → Int) (P : κ → Bool) (l : List α) :
    (((dedupKeys (l.map key)).filter P).map
        (fun k => ((l.filter (fun x => key x == k)).map f).sum)).sum
      = ((l.filter (fun x => P (key x))).map f).sum := by
  rw [sum_partition key f P _ (nodup_dedupKeys _) l]
  have : l.filter (fun x => P (key x) && decide (key x ∈ dedupKeys (l.map key)))
      = l.filter (fun x => P (key x)) := by
    apply List.filter_congr
    intro x hx
    have : key x ∈ dedupKeys (l.map key) :=
      (mem_dedupKeys _ _).mpr (List.mem_map_of_mem key hx)
    simp [this]
  rw [this]

/-- A lookup whose right part fails restricts to the left part. -/
theorem lookup_append_right_none {α β : Type} [BEq α] {l1 l2 : List (α × β)} {a : α}
    (h : l2.lookup a = none) : (l1 ++ l2).lookup a = l1.lookup a := by
  induction l1 with
  | nil => simpa using h
  | cons p l1 ih =>
    obtain ⟨k, v⟩ := p
    simp only [List.cons_append, List.lookup]
    cases a == k with
    | true => rfl
    | false => exact ih

/-- Inversion of a successful grouping. -/
theorem group_by_ok {t : Table} {ks : List String} {g : Table}
    (h : group_by t ks = .ok g) :
    (∀ c ∈ ks, c ∈ t.cols) ∧
    g.cols = ks ++ aggColumns t ks ∧
    g.rows = (dedupKeys ((validRows t ks).map (keyTuple ks))).map (groupRow t ks) := by
  unfold group_by at h
  split at h
  · next hcond =>
    injection h with h2
    subst h2
    exact ⟨hcond, rfl, rfl⟩
  · next => exact Except.noConfusion h

/-- With no missing key cells, grouping keeps every row in play. -/
theorem validRows_eq_self {t : Table} {ks : List String}
    (h : ∀ r ∈ t.rows, keyHasNA ks r = false) : validRows t ks = t.rows := by
  unfold validRows
  apply List.filter_eq_self.mpr
  intro r hr
  rw [h r hr]
  rfl

/-- Reading a key column of a grouped row projects the key tuple. -/
theorem getCell_groupRow_key {t : Table} {ks : List String} {kt : List Value} {s : String}
    (hs : s ∈ ks) :
    getCell (groupRow t ks kt) s = ((ks.zip kt).lookup s).getD Value.na := by
  unfold groupRow getCell
  rw [lookup_append_right_none]
  apply lookup_eq_none
  intro p hp heq
  obtain ⟨c2, hc2, rfl⟩ := List.mem_map.mp hp
  have hcks : c2 ∉ ks := by
    have h2 := (List.mem_filter.mp hc2).2
    simp at h2
    exact h2.1
  have heq2 : s = c2 := heq
  exact hcks (heq2 ▸ hs)

/-- Reading an aggregated column of a grouped row yields the group sum. -/
theorem getCell_groupRow_agg {t : Table} {ks : List String} {k : List Value} {c : String}
    (hc : c ∈ aggColumns t ks) :
    getCell (groupRow t ks k) c
      = Value.int (sumCol ((validRows t ks).filter (fun r => keyTuple ks r == k)) c) := by
  have hcks : c ∉ ks := by
    have h2 := (List.mem_filter.mp hc).2
    simp at h2
    exact h2.1
  unfold groupRow getCell
  rw [lookup_append_right]
  · rw [lookup_map_pair _ hc]
    rfl
  · intro p hp heq
    obtain ⟨a, b⟩ := p
    have hp1 : a ∈ ks := (List.of_mem_zip hp).1
    have heq2 : c = a := heq
    exact hcks (heq2 ▸ hp1)

/-- Projecting a grouped row onto a subset of the key columns reads the
zipped key tuple. -/
theorem keyTuple_groupRow {t : Table} {ks S : List String} {kt : List Value}
    (hS : ∀ s ∈ S, s ∈ ks) :
    keyTuple S (groupRow t ks kt) = subKey S ks kt := by
  unfold keyTuple subKey
  apply List.map_congr_left
  intro s hs
  rw [getCell_groupRow_key (hS s hs)]

/-- On an actual key tuple, the subset projection reads the source row. -/
theorem subKey_keyTuple {ks S : List String} {r : Row}
    (hS : ∀ s ∈ S, s ∈ ks) :
    subKey S ks (keyTuple ks r) = keyTuple S r := by
  unfold subKey
  show _ = S.map (getCell r)
  apply List.map_congr_left
  intro s hs
  rw [lookup_zip_keyTuple (hS s hs)]
  rfl

/-- Per-subkey column totals are preserved by grouping: for any subset `S`
of the grouping columns, the totals of an aggregated column bucketed by
`S` agree between the grouped table and the ungrouped table, provided no
grouping-key cell is missing (so grouping drops no row). -/
theorem group_totals {u : Table} {T S : List String} {c : String} {g : Table} {k0 : List Value}
    (hg : group_by u T = .ok g)
    (hS : ∀ s ∈ S, s ∈ T)
    (hc : c ∈ aggColumns u T)
    (hna : ∀ r ∈ u.rows, keyHasNA T r = false) :
    colTotalFor g S k0 c = colTotalFor u S k0 c := by
  obtain ⟨-, -, hrows⟩ := group_by_ok hg
  have hvalid : validRows u T = u.rows := validRows_eq_self hna
  have step1 : colTotalFor g S k0 c
      = (((dedupKeys (u.rows.map (keyTuple T))).filter (fun kt => subKey S T kt == k0)).map
          (fun kt => ((u.rows.filter (fun r => keyTuple T r == kt)).map
            (fun r => toIntOrZero (getCell r c))).sum)).sum := by
    unfold colTotalFor sumCol
    rw [hrows, hvalid, List.filter_map, List.map_map]
    have hfc : ∀ kt ∈ dedupKeys (u.rows.map (keyTuple T)),
        ((fun row => keyTuple S row == k0) ∘ groupRow u T) kt
          = (fun kt => subKey S T kt == k0) kt := by
      intro kt _
      simp only [Function.comp]
      rw [keyTuple_groupRow hS]
    rw [List.filter_congr hfc]
    apply congrArg List.sum
    apply List.map_congr_left
    intro kt _
    simp only [Function.comp]
    rw [getCell_groupRow_agg hc, hvalid]
    simp [toIntOrZero, sumCol]
  have step2 : (((dedupKeys (u.rows.map (keyTuple T))).filter (fun kt => subKey S T kt == k0)).map
          (fun kt => ((u.rows.filter (fun r => keyTuple T r == kt)).map
            (fun r => toIntOrZero (getCell r c))).sum)).sum
      = ((u.rows.filter (fun r => subKey S T (keyTuple T r) == k0)).map
          (fun r => toIntOrZero (getCell r c))).sum :=
    sum_partition_dedup (keyTuple T) (fun r => toIntOrZero (getCell r c))
      (fun kt => subKey S T kt == k0) u.rows
  rw [step1, step2]
  unfold colTotalFor sumCol
  apply congrArg List.sum
  apply congrArg (List.map _)
  apply List.filter_congr
  intro r _
  rw [subKey_keyTuple hS]

/-- A missing-free key tuple stays missing-free on a subset of the keys. -/
theorem keyHasNA_subset {S T : List String} {r : Row}
    (hS : ∀ s ∈ S, s ∈ T) (h : keyHasNA T r = false) : keyHasNA S r = false := by
  unfold keyHasNA keyTuple at h ⊢
  apply List.any_eq_false.mpr
  intro v hv
  obtain ⟨s, hs, rfl⟩ := List.mem_map.mp hv
  exact List.any_eq_false.mp h _ (List.mem_map_of_mem _ (hS s hs))

/-- An aggregated column of a grouped table is numeric. -/
theorem numericCol_grouped {t : Table} {ks : List String} {g : Table} {c : String}
    (hg : group_by t ks = .ok g) (hc : c ∈ aggColumns t ks) :
    numericCol g c = true := by
  obtain ⟨-, -, hrows⟩ := group_by_ok hg
  unfold numericCol
  rw [hrows]
  apply List.all_eq_true.mpr
  intro row hrow
  obtain ⟨k, hk, rfl⟩ := List.mem_map.mp hrow
  rw [getCell_groupRow_agg hc]
  rfl

/-- The key cells of a grouped table's rows are never missing. -/
theorem keyHasNA_grouped {t : Table} {ks S : List String} {g : Table}
    (hg : group_by t ks = .ok g) (hS : ∀ s ∈ S, s ∈ ks) :
    ∀ row ∈ g.rows, keyHasNA S row = false := by
  obtain ⟨-, -, hrows⟩ := group_by_ok hg
  intro row hrow
  rw [hrows] at hrow
  obtain ⟨k, hk, rfl⟩ := List.mem_map.mp hrow
  obtain ⟨r, hr, rfl⟩ := List.mem_map.mp ((mem_dedupKeys _ _).mp hk)
  have hrna : keyHasNA ks r = false := by
    have h2 := (List.mem_filter.mp hr).2
    simpa using h2
  unfold keyHasNA
  rw [keyTuple_groupRow hS, subKey_keyTuple hS]
  apply List.any_eq_false.mpr
  intro v hv
  unfold keyHasNA keyTuple at hrna
  unfold keyTuple at hv
  obtain ⟨s, hs, rfl⟩ := List.mem_map.mp hv
  exact List.any_eq_false.mp hrna _ (List.mem_map_of_mem _ (hS s hs))

/-- C6, amended: with no missing cell among the superset key columns,
grouping by the superset `T` and re-grouping by the subset `S` yields the
same totals per `S`-key as grouping by `S` directly, for every numeric
metric column outside `T`.  (A numeric column inside `T` or a missing
`T`-key cell breaks the equality, per the counterexample.) -/
theorem C6_groupBy_sum_associative (t : Table) (T S : List String) (c : String)
    (g1 g2 dir : Table)
    (h1 : group_by t T = .ok g1) (h2 : group_by g1 S = .ok g2)
    (h3 : group_by t S = .ok dir)
    (hS : ∀ s ∈ S, s ∈ T)
    (hc : c ∈ t.cols) (hcT : c ∉ T) (hnum : numericCol t c = true)
    (hna : ∀ r ∈ t.rows, keyHasNA T r = false) :
    ∀ k0 : List Value, colTotalFor g2 S k0 c = colTotalFor dir S k0 c := by
  intro k0
  have hcS : c ∉ S := fun hmem => hcT (hS c hmem)
  have hcAggT : c ∈ aggColumns t T := by
    apply List.mem_filter.mpr
    exact ⟨hc, by simp [hcT, hnum]⟩
  have hcAggS : c ∈ aggColumns t S := by
    apply List.mem_filter.mpr
    exact ⟨hc, by simp [hcS, hnum]⟩
  have hnaS : ∀ r ∈ t.rows, keyHasNA S r = false := fun r hr => keyHasNA_subset hS (hna r hr)
  have hg1cols := (group_by_ok h1).2.1
  have hcAgg1 : c ∈ aggColumns g1 S := by
    apply List.mem_filter.mpr
    constructor
    · rw [hg1cols]
      exact List.mem_append_right _ hcAggT
    · simp [hcS, numericCol_grouped h1 hcAggT]
  have hna1 : ∀ row ∈ g1.rows, keyHasNA S row = false := keyHasNA_grouped h1 hS
  rw [group_totals h2 (fun s hs => hs) hcAgg1 hna1]
  rw [group_totals h1 hS hcAggT hna]
  rw [group_totals h3 (fun s hs => hs) hcAggS hnaS]

/-- C6, counterexample to the claim as stated (over every table and every
pair of key sets): with `T = ["a","b"]`, `S = ["a"]`, a numeric column `b`
inside `T` is a key of the two-step grouping (per-key total 1) but is
summed by the direct grouping (total 2); and a missing `b` cell makes the
two-step grouping drop the row (total 0 for `v`) while the direct grouping
keeps it (total 10). -/
theorem C6_counterexample :
    (((group_by assocTable ["a", "b"]).bind (fun g => group_by g ["a"])).map
        (fun g2 => colTotalFor g2 ["a"] [Value.str "x"] "b") = .ok 1
      ∧ (group_by assocTable ["a"]).map
        (fun g => colTotalFor g ["a"] [Value.str "x"] "b") = .ok 2)
    ∧ (((group_by assocTableNA ["a", "b"]).bind (fun g => group_by g ["a"])).map
        (fun g2 => colTotalFor g2 ["a"] [Value.str "x"] "v") = .ok 0
      ∧ (group_by assocTableNA ["a"]).map
        (fun g => colTotalFor g ["a"] [Value.str "x"] "v") = .ok 10) := by
  decide

/-- C6, witness: the amended associativity theorem applied to the concrete
table `assocW`, superset keys `["a","b"]`, subset `["a"]`, metric `v`. -/
theorem C6_witness :
    colTotalFor assocW2 ["a"] [Value.str "x"] "v"
      = colTotalFor assocWdir ["a"] [Value.str "x"] "v" :=
  C6_groupBy_sum_associative assocW ["a", "b"] ["a"] "v" assocW1 assocW2 assocWdir
    (by decide) (by decide) (by decide) (by decide) (by decide) (by decide)
    (by decide) (by decide) [Value.str "x"]

/-- C1: schema validation is total — each of `filter_by_year`,
`filter_by_province`, `group_by` and the merge entry point
`_build_covid_dataset` fails with its schema error (the spec's
`SchemaError`, raised as `AttributeError` by the source) whenever a
required column is absent; since the result type is `Except`, an error
means no table — partial or degraded — is ever returned. -/
theorem C1_schema_validation_total :
    (∀ (t : Table) (y : Int), "Date_of_publication" ∉ t.cols →
      filter_by_year t y = .error (.attributeError "No attribute Date_of_publication"))
    ∧ (∀ (t : Table) (p : String), "Province" ∉ t.cols →
      filter_by_province t p = .error (.attributeError "No attribute Province"))
    ∧ (∀ (t : Table) (ks : List String), ¬(∀ c ∈ ks, c ∈ t.cols) →
      group_by t ks = .error (.attributeError "Columns not in dataset"))
    ∧ (∀ inf hos : Table,
      (¬(∀ c ∈ MERGE_COLUMNS, c ∈ inf.cols)) ∨ (¬(∀ c ∈ MERGE_COLUMNS, c ∈ hos.cols)) →
      ∃ e, _build_covid_dataset inf hos = .error e) := by
  refine ⟨?_, ?_, ?_, ?_⟩
  · intro t y h
    unfold filter_by_year
    rw [if_neg h]
  · intro t p h
    unfold filter_by_province
    rw [if_neg h]
  · intro t ks h
    unfold group_by
    rw [if_neg h]
  · intro inf hos h
    unfold _build_covid_dataset
    cases h with
    | inl h1 =>
      rw [if_neg h1]
      exact ⟨_, rfl⟩
    | inr h2 =>
      by_cases h1 : ∀ c ∈ MERGE_COLUMNS, c ∈ inf.cols
      · rw [if_pos h1, if_neg h2]
        exact ⟨_, rfl⟩
      · rw [if_neg h1]
        exact ⟨_, rfl⟩

/-- C1, witness: the four schema failures at concrete column-less tables. -/
theorem C1_witness :
    filter_by_year emptyTable 2020 = .error (.attributeError "No attribute Date_of_publication")
    ∧ filter_by_province emptyTable "Utrecht" = .error (.attributeError "No attribute Province")
    ∧ group_by emptyTable ["Year"] = .error (.attributeError "Columns not in dataset")
    ∧ ∃ e, _build_covid_dataset emptyTable emptyTable = .error e :=
  ⟨C1_schema_validation_total.1 emptyTable 2020 (by decide),
   C1_schema_validation_total.2.1 emptyTable "Utrecht" (by decide),
   C1_schema_validation_total.2.2.1 emptyTable ["Year"] (by decide),
   C1_schema_validation_total.2.2.2 emptyTable emptyTable (Or.inl (by decide))⟩

/-- C9: `filter_by_province` keeps exactly the rows whose region cell is a
string equal to the argument under case-insensitive comparison — no
substring or fuzzy matching, and non-string cells never match. -/
theorem C9_filter_by_region_case_insensitive (t : Table) (p : String)
    (h : "Province" ∈ t.cols) :
    ∃ u, filter_by_province t p = .ok u ∧ u.cols = t.cols ∧
      u.rows = t.rows.filter (fun r => matchesProvinceCI p (getCell r "Province")) ∧
      ∀ r, r ∈ u.rows ↔ r ∈ t.rows ∧ matchesProvinceCI p (getCell r "Province") = true := by
  unfold filter_by_province
  rw [if_pos h]
  refine ⟨_, rfl, rfl, rfl, ?_⟩
  intro r
  constructor
  · intro hr
    have hm := List.mem_filter.mp hr
    exact ⟨hm.1, hm.2⟩
  · intro hm
    exact List.mem_filter.mpr ⟨hm.1, hm.2⟩

/-- C9, witness: filtering the mixed-case region table for "utrecht". -/
theorem C9_witness :
    ∃ u, filter_by_province provTable "utrecht" = .ok u ∧ u.cols = provTable.cols ∧
      u.rows = provTable.rows.filter (fun r => matchesProvinceCI "utrecht" (getCell r "Province")) ∧
      ∀ r, r ∈ u.rows ↔ r ∈ provTable.rows
        ∧ matchesProvinceCI "utrecht" (getCell r "Province") = true :=
  C9_filter_by_region_case_insensitive provTable "utrecht" (by decide)

/-- C10: a raw case row whose municipality and province are both missing
is left with a missing municipality by the fill step (the fill value
`Province + ' gemeente onbekend'` is itself missing, and `fillna` ignores
it) and is then removed by the drop step — such rows are dropped, not
defaulted, so the drop step is live for them. -/
theorem C10_both_null_dropped (t t1 t2 : Table) (r : Row)
    (hr : r ∈ t.rows)
    (hm : getCell r "Municipality_name" = Value.na)
    (hp : getCell r "Province" = Value.na)
    (h1 : _fill_missing_municipalities t = .ok t1)
    (h2 : _drop_intermediary_rows t1 = .ok t2) :
    r ∈ t1.rows ∧ getCell r "Municipality_name" = Value.na ∧ r ∉ t2.rows := by
  unfold _fill_missing_municipalities at h1
  split at h1
  case isFalse => exact Except.noConfusion h1
  case isTrue hmun =>
  split at h1
  case isFalse => exact Except.noConfusion h1
  case isTrue hprov =>
  split at h1
  case isFalse => exact Except.noConfusion h1
  case isTrue hconcat =>
  injection h1 with h1
  subst h1
  have hfill : fillRow r = r := by
    unfold fillRow
    rw [hm, hp]
  refine ⟨?_, hm, ?_⟩
  · show r ∈ t.rows.map fillRow
    exact hfill ▸ List.mem_map_of_mem fillRow hr
  · unfold _drop_intermediary_rows at h2
    have hc2 : "Municipality_name" ∈ ({ cols := t.cols, rows := t.rows.map fillRow } : Table).cols := hmun
    rw [if_pos hc2] at h2
    injection h2 with h2
    subst h2
    intro hmem
    have hpred := (List.mem_filter.mp hmem).2
    rw [hm] at hpred
    simp at hpred

/-- C10, witness: the concrete both-missing row survives the fill with a
still-missing municipality and is absent after the drop. -/
theorem C10_witness :
    bothNullRow ∈ bothNullFilled.rows
    ∧ getCell bothNullRow "Municipality_name" = Value.na
    ∧ bothNullRow ∉ bothNullDropped.rows :=
  C10_both_null_dropped bothNullTable bothNullFilled bothNullDropped bothNullRow
    (by decide) (by decide) (by decide) (by decide) (by decide)

/-- C3, counterexample: on the spec scenario's case table, the
fill–drop–group cleaning yields two rows, not one — the missing-municipality
row is defaulted, not eliminated. -/
theorem C3_counterexample :
    (caseCleanCore scenarioCaseTable).map (fun u => u.rows.length) = .ok 2 := by
  decide

/-- C3, amended: the cleaning (fill, then drop, then group-and-sum) of the
scenario table produces exactly two rows: the named row
("2021-01-01", "Utrecht", "Utrecht city", 10) and the defaulted row
("2021-01-01", "Utrecht", "Utrecht gemeente onbekend", 5) — the fill runs
before the drop, so the intermediate row is renamed, never removed. -/
theorem C3_scenario_two_rows :
    caseCleanCore scenarioCaseTable = .ok
      { cols := ["Date_of_publication", "Province", "Municipality_name", "Total_reported"],
        rows :=
          [[("Date_of_publication", .str "2021-01-01"), ("Province", .str "Utrecht"),
            ("Municipality_name", .str "Utrecht city"), ("Total_reported", .int 10)],
           [("Date_of_publication", .str "2021-01-01"), ("Province", .str "Utrecht"),
            ("Municipality_name", .str "Utrecht gemeente onbekend"),
            ("Total_reported", .int 5)]] } := by
  decide

/-- C4: the re-aggregation of line 246 is discarded (the `group_by` result
is never assigned back, unlike every other call site), so the built
dataset can hold two rows with one merge key: municipality "Aa" under two
provinces on the same date gives two rows keyed (2021-01-01, "Aa"), while
an actually applied re-grouping would collapse them to one. -/
theorem C4_regroup_discarded :
    (_build_covid_dataset infDup hosDup).map (fun u =>
      (u.rows.filter (fun r =>
        keyTuple MERGE_COLUMNS r == [Value.date ⟨2021, 1, 1⟩, Value.str "Aa"])).length) = .ok 2
    ∧ ((_build_covid_dataset infDup hosDup).bind (fun u => group_by u MERGE_COLUMNS)).map
      (fun u => (u.rows.filter (fun r =>
        keyTuple MERGE_COLUMNS r == [Value.date ⟨2021, 1, 1⟩, Value.str "Aa"])).length) = .ok 1 := by
  constructor
  · decide
  · decide

/-- C5, counterexample to "non-empty": an empty-string municipality name is
not missing, survives every cleaning step, and reaches the built dataset. -/
theorem C5_counterexample :
    (_build_covid_dataset infEmpty hosEmpty).map
      (fun u => u.rows.map (fun r => getCell r "Municipality_name")) = .ok [Value.str ""] := by
  decide

/-- Writing one column leaves every other column's cell unchanged. -/
theorem getCell_setCell_ne {r : Row} {c c2 : String} {v : Value} (h : c ≠ c2) :
    getCell (setCell r c2 v) c = getCell r c := by
  unfold getCell setCell
  induction r with
  | nil => rfl
  | cons p r ih =>
    obtain ⟨k, w⟩ := p
    simp only [List.map_cons]
    by_cases hk : k = c2
    · subst hk
      rw [if_pos (show ((k, w) : String × Value).1 = k from rfl)]
      rw [List.lookup_cons, List.lookup_cons]
      rw [beq_false_of_ne h]
      exact ih
    · rw [if_neg (show ¬((k, w) : String × Value).1 = c2 from hk)]
      rw [List.lookup_cons, List.lookup_cons]
      cases c == k with
      | true => rfl
      | false => exact ih

/-- Appending a differently named column leaves a cell unchanged. -/
theorem getCell_append_single_ne {r : Row} {c c2 : String} {v : Value} (h : c ≠ c2) :
    getCell (r ++ [(c2, v)]) c = getCell r c := by
  unfold getCell
  rw [lookup_append_right_none]
  simp only [List.lookup]
  rw [beq_false_of_ne h]

/-- A cell outside the padded columns of a merged row reads the left row. -/
theorem getCell_append_pad {lr : Row} {padCols : List String} {f : String → Value} {c : String}
    (hc : ∀ c2 ∈ padCols, c ≠ c2) :
    getCell (lr ++ padCols.map (fun c2 => (c2, f c2))) c = getCell lr c := by
  unfold getCell
  rw [lookup_append_right_none]
  apply lookup_eq_none
  intro p hp heq
  obtain ⟨c2, hc2, rfl⟩ := List.mem_map.mp hp
  exact hc c2 hc2 heq

/-- Every merged row reads its key cells from some left row. -/
theorem getCell_leftMerge_key {L R : Table} {ks : List String} {c : String}
    (hc : c ∈ ks) :
    ∀ row ∈ (leftMerge L R ks).rows, ∃ lr ∈ L.rows, getCell row c = getCell lr c := by
  intro row hrow
  unfold leftMerge at hrow
  simp only [List.mem_flatMap] at hrow
  obtain ⟨lr, hlr, hmem⟩ := hrow
  refine ⟨lr, hlr, ?_⟩
  have hpad : ∀ c2 ∈ R.cols.filter (fun c2 => decide (c2 ∉ ks)), c ≠ c2 := by
    intro c2 hc2 heq
    have h2 := (List.mem_filter.mp hc2).2
    simp at h2
    exact h2 (heq ▸ hc)
  by_cases hempty : (R.rows.filter (fun rr => keyTuple ks rr == keyTuple ks lr)).isEmpty = true
  · rw [if_pos hempty] at hmem
    simp only [List.mem_singleton] at hmem
    subst hmem
    exact getCell_append_pad hpad
  · rw [if_neg hempty] at hmem
    obtain ⟨rr, hrr, rfl⟩ := List.mem_map.mp hmem
    exact getCell_append_pad hpad

/-- A grouped table never carries a missing cell in a grouping column. -/
theorem getCell_grouped_ne_na {t : Table} {ks : List String} {g : Table} {s : String}
    (hg : group_by t ks = .ok g) (hs : s ∈ ks) :
    ∀ row ∈ g.rows, getCell row s ≠ Value.na := by
  intro row hrow
  have hsub : ∀ x ∈ [s], x ∈ ks := by
    intro x hx
    cases hx with
    | head => exact hs
    | tail _ h2 => cases h2
  have h := keyHasNA_grouped hg hsub row hrow
  unfold keyHasNA keyTuple at h
  simpa using h

/-- The cleaned case table never has a missing municipality name: its rows
come out of the grouping on (date, province, municipality). -/
theorem clean_inf_mun_ne_na {t out : Table}
    (h : _clean_infections_and_mortalities_dataset t = .ok out) :
    ∀ r ∈ out.rows, getCell r "Municipality_name" ≠ Value.na := by
  unfold _clean_infections_and_mortalities_dataset at h
  obtain ⟨t1, h1, h⟩ := except_bind_ok h
  obtain ⟨t2, h2, h⟩ := except_bind_ok h
  by_cases hP : ∀ c ∈ infColumnsToDrop, c ∈ t2.cols
  · rw [if_pos hP] at h
    by_cases hQ : ∀ c ∈ infGroupingColumns, c ∈ (dropColumns t2 infColumnsToDrop).cols
    · rw [if_pos hQ] at h
      exact getCell_grouped_ne_na h (by decide)
    · rw [if_neg hQ] at h
      exact Except.noConfusion h
  · rw [if_neg hP] at h
    exact Except.noConfusion h

/-- Every row of a fillna-ed table descends from an input row with the
same cells outside the filled column. -/
theorem getCell_fillnaHA {t t1 : Table} (h : fillnaHospitalAdmission t = .ok t1)
    {c : String} (hc : c ≠ "Hospital_admission") :
    ∀ r1 ∈ t1.rows, ∃ r ∈ t.rows, getCell r1 c = getCell r c := by
  unfold fillnaHospitalAdmission at h
  by_cases hcol : "Hospital_admission" ∈ t.cols
  · rw [if_pos hcol] at h
    injection h with h
    subst h
    intro r1 hr1
    obtain ⟨r, hr, rfl⟩ := List.mem_map.mp hr1
    refine ⟨r, hr, ?_⟩
    unfold fillHARow
    by_cases hna : (getCell r "Hospital_admission" == Value.na) = true
    · rw [if_pos hna]
      exact getCell_setCell_ne hc
    · rw [if_neg hna]
  · rw [if_neg hcol] at h
    exact Except.noConfusion h

/-- Every row of the date-converted table descends from an input row with
the same cells outside the date column. -/
theorem getCell_toDatetime {t t1 : Table} (h : toDatetimeDateCol t = .ok t1)
    {c : String} (hc : c ≠ "Date_of_publication") :
    ∀ r1 ∈ t1.rows, ∃ r ∈ t.rows, getCell r1 c = getCell r c := by
  unfold toDatetimeDateCol at h
  by_cases hcol : "Date_of_publication" ∈ t.cols
  · rw [if_pos hcol] at h
    by_cases hok : t.rows.all (fun r => dateCellOk (getCell r "Date_of_publication")) = true
    · rw [if_pos hok] at h
      injection h with h
      subst h
      intro r1 hr1
      obtain ⟨r, hr, rfl⟩ := List.mem_map.mp hr1
      exact ⟨r, hr, getCell_setCell_ne hc⟩
    · rw [if_neg hok] at h
      exact Except.noConfusion h
  · rw [if_neg hcol] at h
    exact Except.noConfusion h

/-- Every row of a table with one appended derived column descends from an
input row with the same cells outside the new column. -/
theorem getCell_setColumn {t : Table} {c2 : String} {f : Row → Value}
    {c : String} (hc : c ≠ c2) :
    ∀ r1 ∈ (setColumn t c2 f).rows, ∃ r ∈ t.rows, getCell r1 c = getCell r c := by
  intro r1 hr1
  unfold setColumn at hr1
  obtain ⟨r, hr, rfl⟩ := List.mem_map.mp hr1
  exact ⟨r, hr, getCell_append_single_ne hc⟩

/-- The merged-dataset post-processing keeps the municipality column's
cells: every output row reads its municipality from some merged row. -/
theorem clean_covid_mun_ne_na {t out : Table}
    (h : _clean_covid_dataset t = .ok out)
    (hmun : ∀ r ∈ t.rows, getCell r "Municipality_name" ≠ Value.na) :
    ∀ r ∈ out.rows, getCell r "Municipality_name" ≠ Value.na := by
  unfold _clean_covid_dataset at h
  obtain ⟨g0, hg0, h⟩ := except_bind_ok h
  obtain ⟨t1, h1, h⟩ := except_bind_ok h
  obtain ⟨t2, h2, h⟩ := except_bind_ok h
  injection h with h
  subst h
  intro r hr
  obtain ⟨rY, hrY, heqM⟩ := getCell_setColumn (c := "Municipality_name") (by decide) r hr
  obtain ⟨r2, hr2, heqY⟩ := getCell_setColumn (c := "Municipality_name") (by decide) rY hrY
  obtain ⟨rD, hrD, heqD⟩ := getCell_toDatetime (c := "Municipality_name") h2 (by decide) r2 hr2
  obtain ⟨r0, hr0, heqH⟩ := getCell_fillnaHA (c := "Municipality_name") h1 (by decide) rD hrD
  rw [heqM, heqY, heqD, heqH]
  exact hmun r0 hr0

/-- C5, amended: every row of a successfully built covid dataset has a
present (non-missing) municipality name — missing names are either
defaulted by the fill or dropped with their row, and the grouping, merge
and post-processing keep the column filled.  (Non-empty is not guaranteed:
an empty-string name survives, per the counterexample.) -/
theorem C5_sub_region_not_null (inf hos out : Table)
    (h : _build_covid_dataset inf hos = .ok out) :
    ∀ r ∈ out.rows, getCell r "Municipality_name" ≠ Value.na := by
  unfold _build_covid_dataset at h
  by_cases hA : ∀ c ∈ MERGE_COLUMNS, c ∈ inf.cols
  · rw [if_pos hA] at h
    by_cases hB : ∀ c ∈ MERGE_COLUMNS, c ∈ hos.cols
    · rw [if_pos hB] at h
      obtain ⟨inf2, hinf2, h⟩ := except_bind_ok h
      obtain ⟨hos2, hhos2, h⟩ := except_bind_ok h
      apply clean_covid_mun_ne_na h
      intro r hr
      obtain ⟨lr, hlr, heq⟩ := getCell_leftMerge_key (c := "Municipality_name") (by decide) r hr
      rw [heq]
      exact clean_inf_mun_ne_na hinf2 lr hlr
    · rw [if_neg hB] at h
      exact Except.noConfusion h
  · rw [if_neg hA] at h
    exact Except.noConfusion h

/-- C5, witness: the amended invariant applied to the concrete raw tables
`infW`, `hosW` (which exercise both the fill and the drop), instantiated
at the built dataset's first row. -/
theorem C5_witness :
    getCell (outW.rows.getD 0 []) "Municipality_name" ≠ Value.na :=
  C5_sub_region_not_null infW hosW outW (by decide) (outW.rows.getD 0 [])
    (by decide)

/-- On a list whose keys are duplicate-free, filtering by one key yields
the element `find?` locates, or nothing. -/
theorem filter_key_find {α κ : Type} [BEq κ] [LawfulBEq κ] (key : α → κ) {l : List α}
    (h : (l.map key).Nodup) (k : κ) :
    l.filter (fun x => key x == k)
      = (match l.find? (fun x => key x == k) with
         | some x => [x]
         | none => []) := by
  induction l with
  | nil => rfl
  | cons a l ih =>
    rw [List.map_cons] at h
    have hka : key a ∉ l.map key := (List.nodup_cons.mp h).1
    have hl : (l.map key).Nodup := (List.nodup_cons.mp h).2
    by_cases ha : (key a == k) = true
    · rw [List.filter_cons_of_pos (p := fun x => key x == k) ha,
        List.find?_cons_of_pos (p := fun x => key x == k) _ ha]
      have hnil : l.filter (fun x => key x == k) = [] := by
        apply List.filter_eq_nil_iff.mpr
        intro x hx hxk
        have hxe : key x = k := by simpa using hxk
        have hae : key a = k := by simpa using ha
        apply hka
        rw [hae, ← hxe]
        exact List.mem_map_of_mem key hx
      rw [hnil]
    · rw [List.filter_cons_of_neg (p := fun x => key x == k) (by simpa using ha),
        List.find?_cons_of_neg (p := fun x => key x == k) _ (by simpa using ha)]
      exact ih hl

/-- A flat map whose pieces are all singletons is a map. -/
theorem flatMap_eq_map {α β : Type} {f : α → List β} {g : α → β} :
    ∀ {l : List α}, (∀ x ∈ l, f x = [g x]) → l.flatMap f = l.map g := by
  intro l h
  induction l with
  | nil => rfl
  | cons a l ih =>
    rw [List.flatMap_cons, List.map_cons, h a (List.mem_cons_self a l),
      ih (fun x hx => h x (List.mem_cons_of_mem a hx))]
    rfl

/-- Writing a column that the row carries makes its cell read back. -/
theorem getCell_setCell_self {r : Row} {c : String} {v : Value}
    (h : (r.lookup c).isSome = true) : getCell (setCell r c v) c = v := by
  unfold getCell setCell
  induction r with
  | nil => simp at h
  | cons p r ih =>
    obtain ⟨k, w⟩ := p
    by_cases hk : k = c
    · subst hk
      simp only [List.map_cons, if_pos (show ((k, w) : String × Value).1 = k from rfl)]
      simp [List.lookup_cons]
    · have hck : (c == k) = false := beq_false_of_ne (fun hck => hk hck.symm)
      simp only [List.map_cons, if_neg (show ¬((k, w) : String × Value).1 = c from hk)]
      rw [List.lookup_cons] at h
      rw [hck] at h
      rw [List.lookup_cons, hck]
      exact ih h

/-- With duplicate-free admission keys, the left merge produces exactly
one row per case row, of the `mergedRow` shape. -/
theorem leftMerge_rows_eq {ct adm : Table}
    (hu2 : (adm.rows.map (keyTuple MERGE_COLUMNS)).Nodup) :
    (leftMerge ct adm MERGE_COLUMNS).rows = ct.rows.map (mergedRow adm) := by
  show ct.rows.flatMap _ = _
  apply flatMap_eq_map
  intro lr _
  rw [filter_key_find (keyTuple MERGE_COLUMNS) hu2 (keyTuple MERGE_COLUMNS lr)]
  unfold mergedRow
  cases hfind : adm.rows.find?
      (fun ar => keyTuple MERGE_COLUMNS ar == keyTuple MERGE_COLUMNS lr) with
  | none => rfl
  | some ar => rfl

/-- The merge key of a fill-processed merged row is the case row's key. -/
theorem keyTuple_mergedRow_fill {adm : Table} (lr : Row) :
    keyTuple MERGE_COLUMNS (fillHARow (mergedRow adm lr)) = keyTuple MERGE_COLUMNS lr := by
  have hfix : ∀ s ∈ MERGE_COLUMNS, getCell (fillHARow (mergedRow adm lr)) s = getCell lr s := by
    intro s hs
    have hsHA : s ≠ "Hospital_admission" := by
      intro hEq
      subst hEq
      exact absurd hs (by decide)
    have h1 : getCell (fillHARow (mergedRow adm lr)) s = getCell (mergedRow adm lr) s := by
      unfold fillHARow
      by_cases hna : (getCell (mergedRow adm lr) "Hospital_admission" == Value.na) = true
      · rw [if_pos hna]
        exact getCell_setCell_ne hsHA
      · rw [if_neg hna]
    rw [h1]
    unfold mergedRow
    apply getCell_append_pad
    intro c2 hc2 hEq
    have h2 := (List.mem_filter.mp hc2).2
    simp at h2
    exact h2 (hEq ▸ hs)
  unfold keyTuple
  exact List.map_congr_left hfix
  
/-- The admission cell of a merged row before the fill: the matched
admission row's value, or missing when no admission row has the key. -/
theorem lookup_mergedRow_HA {adm : Table} (lr : Row)
    (hct : ∀ p ∈ lr, p.1 ≠ "Hospital_admission")
    (hHA : "Hospital_admission" ∈ adm.cols) :
    (mergedRow adm lr).lookup "Hospital_admission"
      = some (match adm.rows.find?
            (fun ar => keyTuple MERGE_COLUMNS ar == keyTuple MERGE_COLUMNS lr) with
          | some ar => getCell ar "Hospital_admission"
          | none => Value.na) := by
  unfold mergedRow
  rw [lookup_append_right (fun p hp hEq => hct p hp hEq.symm)]
  have hHApad : "Hospital_admission" ∈ adm.cols.filter (fun c => decide (c ∉ MERGE_COLUMNS)) :=
    List.mem_filter.mpr ⟨hHA, by decide⟩
  exact lookup_map_pair _ hHApad

/-- C2, amended: merging a cleaned case table with a cleaned admissions
table (left-outer join on (date, municipality) of line 135, then the
0-fill of line 247) keeps exactly as many rows per (date, sub_region) key
as the case table has — exactly one per key when the case table's keys
are unique, which its grouping by (date, province, sub_region) does not
itself guarantee — and each output row's hospital admission is the
matching admission row's summed value, or 0 when no admission row has the
key. -/
theorem C2_merge_left_outer_fill (ct adm out : Table)
    (hu2 : (adm.rows.map (keyTuple MERGE_COLUMNS)).Nodup)
    (hct : ∀ lr ∈ ct.rows, ∀ p ∈ lr, p.1 ≠ "Hospital_admission")
    (hHA : "Hospital_admission" ∈ adm.cols)
    (hint : ∀ ar ∈ adm.rows, ∃ n : Int, getCell ar "Hospital_admission" = Value.int n)
    (hout : mergeFill ct adm = .ok out)
    (d m : Value) :
    (out.rows.filter (fun r => keyTuple MERGE_COLUMNS r == [d, m])).length
      = (ct.rows.filter (fun lr => keyTuple MERGE_COLUMNS lr == [d, m])).length
    ∧ ∀ r ∈ out.rows, (keyTuple MERGE_COLUMNS r == [d, m]) = true →
        getCell r "Hospital_admission"
          = (match adm.rows.find? (fun ar => keyTuple MERGE_COLUMNS ar == [d, m]) with
             | some ar => getCell ar "Hospital_admission"
             | none => Value.int 0) := by
  unfold mergeFill fillnaHospitalAdmission at hout
  have hHAmerge : "Hospital_admission" ∈ (leftMerge ct adm MERGE_COLUMNS).cols := by
    show "Hospital_admission" ∈ ct.cols ++ adm.cols.filter (fun c => decide (c ∉ MERGE_COLUMNS))
    exact List.mem_append_right _ (List.mem_filter.mpr ⟨hHA, by decide⟩)
  rw [if_pos hHAmerge] at hout
  injection hout with hout
  subst hout
  have hrows : (leftMerge ct adm MERGE_COLUMNS).rows = ct.rows.map (mergedRow adm) :=
    leftMerge_rows_eq hu2
  constructor
  · show (((leftMerge ct adm MERGE_COLUMNS).rows.map fillHARow).filter _).length = _
    rw [hrows, List.map_map, List.filter_map, List.length_map]
    apply congrArg List.length
    apply List.filter_congr
    intro lr _
    show (keyTuple MERGE_COLUMNS (fillHARow (mergedRow adm lr)) == [d, m]) = _
    rw [keyTuple_mergedRow_fill]
  · intro r hr hkey
    have hr2 : r ∈ (leftMerge ct adm MERGE_COLUMNS).rows.map fillHARow := hr
    rw [hrows, List.map_map] at hr2
    obtain ⟨lr, hlr, rfl⟩ := List.mem_map.mp hr2
    simp only [Function.comp_apply] at hkey ⊢
    have hklr : keyTuple MERGE_COLUMNS lr = [d, m] := by
      rw [keyTuple_mergedRow_fill] at hkey
      simpa using hkey
    have hlook := lookup_mergedRow_HA lr (hct lr hlr) hHA
    rw [hklr] at hlook
    cases hfind : adm.rows.find? (fun ar => keyTuple MERGE_COLUMNS ar == [d, m]) with
    | some ar =>
      rw [hfind] at hlook
      obtain ⟨n, hn⟩ := hint ar (List.mem_of_find?_eq_some hfind)
      have hg : getCell (mergedRow adm lr) "Hospital_admission"
          = getCell ar "Hospital_admission" := by
        unfold getCell
        rw [hlook]
        rfl
      unfold fillHARow
      rw [if_neg ?hcond]
      case hcond =>
        rw [hg, hn]
        simp
      exact hg
    | none =>
      rw [hfind] at hlook
      have hg : getCell (mergedRow adm lr) "Hospital_admission" = Value.na := by
        unfold getCell
        rw [hlook]
        rfl
      unfold fillHARow
      rw [if_pos ?hcond2]
      case hcond2 =>
        rw [hg]
        decide
      apply getCell_setCell_self
      rw [hlook]
      rfl

/-- C2, counterexample to "exactly one row per (date, sub_region) key":
the cleaned case table is grouped by (date, province, sub_region), so the
same (date, sub_region) key can occur under two provinces, and the merged
output then carries two rows for that key. -/
theorem C2_counterexample :
    _clean_infections_and_mortalities_dataset infDup = .ok ctDup
    ∧ _clean_hospital_admissions_dataset hosDup = .ok admDup
    ∧ (mergeFill ctDup admDup).map (fun u =>
        (u.rows.filter (fun r =>
          keyTuple MERGE_COLUMNS r == [Value.str "2021-01-01", Value.str "Aa"])).length)
      = .ok 2 := by
  refine ⟨by decide, by decide, by decide⟩

/-- C2, witness: the amended merge property at the concrete cleaned-form
tables `ctW2` (unique keys) and `admW2`, at the matched key. -/
theorem C2_witness :
    ((outW2.rows.filter (fun r =>
        keyTuple MERGE_COLUMNS r == [Value.str "2021-01-01", Value.str "Aa"])).length
      = (ctW2.rows.filter (fun lr =>
        keyTuple MERGE_COLUMNS lr == [Value.str "2021-01-01", Value.str "Aa"])).length)
    ∧ ∀ r ∈ outW2.rows,
        (keyTuple MERGE_COLUMNS r == [Value.str "2021-01-01", Value.str "Aa"]) = true →
        getCell r "Hospital_admission"
          = (match admW2.rows.find? (fun ar =>
                keyTuple MERGE_COLUMNS ar == [Value.str "2021-01-01", Value.str "Aa"]) with
             | some ar => getCell ar "Hospital_admission"
             | none => Value.int 0) :=
  C2_merge_left_outer_fill ctW2 admW2 outW2 (by decide) (by decide) (by decide)
    (by
      intro ar har
      rw [show admW2.rows = [[("Date_of_publication", Value.str "2021-01-01"),
        ("Municipality_name", Value.str "Aa"), ("Hospital_admission", Value.int 7)]] from rfl,
        List.mem_singleton] at har
      subst har
      exact ⟨7, rfl⟩)
    (by decide) (Value.str "2021-01-01") (Value.str "Aa")

/-- Looking up a column in a row rebuilt from a column list reads the
original row's cell. -/
theorem lookup_map_getCell (r : Row) {l : List String} {a : String} (h : a ∈ l) :
    (l.map (fun c => (c, getCell r c))).lookup a = some (getCell r a) :=
  lookup_map_pair (fun c => getCell r c) h

/-- On a frame's rows with duplicate-free dates, filtering by one present
date yields exactly that row. -/
theorem filter_fst_eq_singleton {β : Type} {l : List (Date × β)}
    (h : (l.map Prod.fst).Nodup) {d : Date} {b : β} (hmem : (d, b) ∈ l) :
    l.filter (fun x => x.1 == d) = [(d, b)] := by
  rw [filter_key_find Prod.fst h d]
  cases hf : l.find? (fun x => x.1 == d) with
  | none =>
    have := List.find?_eq_none.mp hf (d, b) hmem
    simp at this
  | some q =>
    have hq1 : q.1 = d := by simpa using List.find?_some hf
    have hqmem := List.mem_of_find?_eq_some hf
    have : q = (d, b) := by
      apply List.inj_on_of_nodup_map h hqmem hmem
      rw [hq1]
    rw [this]

/-- Filtering a date-preserving flat map by one date commutes with
filtering the inputs. -/
theorem filter_flatMap_fst {β : Type} (F : (Date × β) → List (Date × β))
    (hF : ∀ x q, q ∈ F x → q.1 = x.1) (d : Date) :
    ∀ l : List (Date × β),
      (l.flatMap F).filter (fun x => x.1 == d)
        = (l.filter (fun x => x.1 == d)).flatMap F := by
  intro l
  induction l with
  | nil => rfl
  | cons x l ih =>
    rw [List.flatMap_cons, List.filter_append, ih]
    by_cases hxd : (x.1 == d) = true
    · rw [List.filter_cons_of_pos (p := fun y : Date × β => y.1 == d) hxd, List.flatMap_cons]
      have hself : (F x).filter (fun q => q.1 == d) = F x := by
        apply List.filter_eq_self.mpr
        intro q hq
        have h1 : q.1 = x.1 := hF x q hq
        have h2 : x.1 = d := by simpa using hxd
        simp [h1, h2]
      rw [hself]
    · rw [List.filter_cons_of_neg (p := fun y : Date × β => y.1 == d) hxd]
      have hnil : (F x).filter (fun q => q.1 == d) = [] := by
        apply List.filter_eq_nil_iff.mpr
        intro q hq hqd
        apply hxd
        have h1 : q.1 = x.1 := hF x q hq
        rw [h1] at hqd
        exact hqd
      rw [hnil]
      rfl

/-- Every row the join step emits keeps its input's date. -/
theorem joinStep_fst (B : Frame) :
    ∀ x q, q ∈ (if (B.rows.filter (fun q2 => q2.1 == x.1)).isEmpty then
        [((x : Date × Row).1, x.2 ++ B.cols.map (fun c => (c, Value.na)))]
      else (B.rows.filter (fun q2 => q2.1 == x.1)).map
        (fun q2 => (x.1, x.2 ++ B.cols.map (fun c => (c, getCell q2.2 c))))) →
      q.1 = x.1 := by
  intro x q hq
  by_cases hempty : (B.rows.filter (fun q2 => q2.1 == x.1)).isEmpty = true
  · rw [if_pos hempty] at hq
    rw [List.mem_singleton] at hq
    rw [hq]
  · rw [if_neg hempty] at hq
    obtain ⟨q2, hq2, rfl⟩ := List.mem_map.mp hq
    rfl

/-- Joining pads every row whose date the right frame lacks with missing
cells, one output row per input row. -/
theorem joinFrames_filter_date {A B : Frame} {d : Date}
    (hnomatch : B.rows.filter (fun q => q.1 == d) = []) :
    (joinFrames A B).rows.filter (fun x => x.1 == d)
      = (A.rows.filter (fun x => x.1 == d)).map
          (fun x => (x.1, x.2 ++ B.cols.map (fun c => (c, Value.na)))) := by
  show (A.rows.flatMap _).filter _ = _
  rw [filter_flatMap_fst _ (joinStep_fst B) d]
  apply flatMap_eq_map
  intro x hx
  have hx1 : x.1 = d := by
    have := (List.mem_filter.mp hx).2
    simpa using this
  have hms : B.rows.filter (fun q => q.1 == x.1) = [] := by
    rw [hx1]
    exact hnomatch
  rw [hms]
  rfl

/-- C7: the historical segment of a forecast result carries exactly the
input series values for the forecast metric — for every input date on or
after the start date, the result has exactly one row at that date and its
metric cell is the input's, untouched by the forecast assembly. -/
theorem C7_history_preserved (df : Frame) (prop : String) (from_date : Date)
    (days : Nat) (row_labels : List Date) (pm lo hi : List Value)
    (hnodup : (df.rows.map Prod.fst).Nodup)
    (hdisj : ∀ l ∈ row_labels, ¬ l ∈ df.rows.map Prod.fst)
    (hprop : prop ∈ df.cols)
    (d : Date) (r : Row) (hd : (d, r) ∈ df.rows)
    (hfrom : dateLe from_date d = true) :
    ((get_prediction df prop from_date days row_labels pm lo hi).rows.filter
        (fun x => x.1 == d)).map (fun x => getCell x.2 prop)
      = [getCell r prop] := by
  have hdmem : d ∈ df.rows.map Prod.fst := List.mem_map_of_mem Prod.fst hd
  have hdlab : ¬ d ∈ row_labels := fun hl => hdisj d hl hdmem
  have hconf : (confFrame prop row_labels lo hi).rows.filter (fun q => q.1 == d) = [] := by
    apply List.filter_eq_nil_iff.mpr
    intro q hq hqd
    obtain ⟨z, hz, rfl⟩ := List.mem_map.mp hq
    obtain ⟨zd, zv⟩ := z
    have hz1 : zd ∈ row_labels := (List.of_mem_zip hz).1
    have : zd = d := by simpa using hqd
    exact hdlab (this ▸ hz1)
  have hfore : (forecastFrame row_labels pm).rows.filter (fun q => q.1 == d) = [] := by
    apply List.filter_eq_nil_iff.mpr
    intro q hq hqd
    obtain ⟨z, hz, rfl⟩ := List.mem_map.mp hq
    obtain ⟨zd, zv⟩ := z
    have hz1 : zd ∈ row_labels := (List.of_mem_zip hz).1
    have : zd = d := by simpa using hqd
    exact hdlab (this ▸ hz1)
  show (((joinFrames (concatFrames df (forecastFrame row_labels pm))
      (confFrame prop row_labels lo hi)).rows.filter
        (fun x => dateLe from_date x.1)).filter (fun x => x.1 == d)).map
          (fun x => getCell x.2 prop) = _
  rw [List.filter_filter]
  have hpred : ∀ x : Date × Row, x ∈ (joinFrames (concatFrames df (forecastFrame row_labels pm))
      (confFrame prop row_labels lo hi)).rows →
      ((x.1 == d) && dateLe from_date x.1) = (x.1 == d) := by
    intro x _
    by_cases hxd : (x.1 == d) = true
    · have hx1 : x.1 = d := by simpa using hxd
      rw [hx1, hfrom]
      simp
    · have hxd2 : (x.1 == d) = false := by simpa using hxd
      rw [hxd2, Bool.false_and]
  rw [List.filter_congr hpred]
  rw [joinFrames_filter_date hconf]
  have hconcatfilter : (concatFrames df (forecastFrame row_labels pm)).rows.filter
      (fun x => x.1 == d)
      = [(d, (unionCols df (forecastFrame row_labels pm)).map (fun c => (c, getCell r c)))] := by
    show (((df.rows ++ (forecastFrame row_labels pm).rows).map _).filter _) = _
    rw [List.filter_map]
    have hinner : (df.rows ++ (forecastFrame row_labels pm).rows).filter
        (fun x => x.1 == d) = [(d, r)] := by
      rw [List.filter_append, hfore, filter_fst_eq_singleton hnodup hd]
      simp
    rw [show ((fun x : Date × Row => x.1 == d) ∘
        (fun p : Date × Row =>
          (p.1, (unionCols df (forecastFrame row_labels pm)).map (fun c => (c, getCell p.2 c)))))
        = (fun x : Date × Row => x.1 == d) from rfl]
    rw [hinner]
    rfl
  rw [hconcatfilter]
  have hcell : getCell ((unionCols df (forecastFrame row_labels pm)).map
      (fun c => (c, getCell r c))
      ++ (confFrame prop row_labels lo hi).cols.map (fun c => (c, Value.na))) prop
      = getCell r prop := by
    show ((((unionCols df (forecastFrame row_labels pm)).map (fun c => (c, getCell r c))
      ++ (confFrame prop row_labels lo hi).cols.map
        (fun c => (c, Value.na))).lookup prop)).getD Value.na = getCell r prop
    rw [lookup_append_left (lookup_map_getCell r
      (show prop ∈ unionCols df (forecastFrame row_labels pm) from
        List.mem_append_left _ hprop))]
    rfl
  rw [List.map_cons, List.map_cons, List.map_nil, List.map_nil]
  rw [hcell]

/-- The lower-bound column name never collides with `predicted_mean`. -/
theorem lower_ne_predicted_mean (s : String) : ("lower " ++ s) ≠ "predicted_mean" := by
  intro h
  have h2 := congrArg String.data h
  rw [String.data_append] at h2
  simp at h2

/-- The upper-bound column name never collides with `predicted_mean`. -/
theorem upper_ne_predicted_mean (s : String) : ("upper " ++ s) ≠ "predicted_mean" := by
  intro h
  have h2 := congrArg String.data h
  rw [String.data_append] at h2
  simp at h2

/-- The two bound column names never collide. -/
theorem lower_ne_upper (s : String) : ("lower " ++ s) ≠ ("upper " ++ s) := by
  intro h
  have h2 := congrArg String.data h
  rw [String.data_append, String.data_append] at h2
  simp at h2

/-- Joining extends every row whose date the right frame holds once with
that right row's cells. -/
theorem joinFrames_filter_date_match {A B : Frame} {d : Date} {q : Date × Row}
    (hq : B.rows.filter (fun q2 => q2.1 == d) = [q]) :
    (joinFrames A B).rows.filter (fun x => x.1 == d)
      = (A.rows.filter (fun x => x.1 == d)).map
          (fun x => (x.1, x.2 ++ B.cols.map (fun c => (c, getCell q.2 c)))) := by
  show (A.rows.flatMap _).filter _ = _
  rw [filter_flatMap_fst _ (joinStep_fst B) d]
  apply flatMap_eq_map
  intro x hx
  have hx1 : x.1 = d := by simpa using (List.mem_filter.mp hx).2
  have hms : B.rows.filter (fun q2 => q2.1 == x.1) = [q] := by
    rw [hx1]
    exact hq
  rw [hms]
  rfl

/-- The forecast frame holds exactly one row at the i-th forecast date. -/
theorem forecastFrame_filter (labels : List Date) (pm : List Value)
    (hlabnd : labels.Nodup) (hlen1 : pm.length = labels.length)
    (i : Nat) (hi2 : i < labels.length) :
    (forecastFrame labels pm).rows.filter (fun x => x.1 == labels.get ⟨i, hi2⟩)
      = [(labels.get ⟨i, hi2⟩, [("predicted_mean", pm.getD i Value.na)])] := by
  have hfst : (forecastFrame labels pm).rows.map Prod.fst = labels := by
    show ((labels.zip pm).map _).map Prod.fst = labels
    rw [List.map_map]
    have hcongr : (labels.zip pm).map
        (Prod.fst ∘ (fun p : Date × Value => (p.1, [("predicted_mean", p.2)])))
        = (labels.zip pm).map Prod.fst :=
      List.map_congr_left (fun p _ => rfl)
    rw [hcongr]
    exact List.map_fst_zip labels pm (by omega)
  have hipm : i < pm.length := by omega
  have hiz : i < (labels.zip pm).length := by
    rw [List.length_zip]
    omega
  have hget : pm.getD i Value.na = pm.get ⟨i, hipm⟩ := by
    simp [List.getD_eq_getElem?_getD, List.getElem?_eq_getElem hipm,
      List.get_eq_getElem]
  have hrowlen : i < (forecastFrame labels pm).rows.length := by
    show i < ((labels.zip pm).map _).length
    rw [List.length_map]
    exact hiz
  have hele : (forecastFrame labels pm).rows.get ⟨i, hrowlen⟩
      = (labels.get ⟨i, hi2⟩, [("predicted_mean", pm.getD i Value.na)]) := by
    show ((labels.zip pm).map _).get ⟨i, hrowlen⟩ = _
    rw [List.get_eq_getElem, List.getElem_map, List.getElem_zip, hget]
    rfl
  have hmemrow : (labels.get ⟨i, hi2⟩, [("predicted_mean", pm.getD i Value.na)])
      ∈ (forecastFrame labels pm).rows := by
    rw [← hele]
    exact List.get_mem _ _ _
  exact filter_fst_eq_singleton (by rw [hfst]; exact hlabnd) hmemrow

/-- The confidence frame holds exactly one row at the i-th forecast date. -/
theorem confFrame_filter (prop : String) (labels : List Date) (lo hi : List Value)
    (hlabnd : labels.Nodup) (hlen2 : lo.length = labels.length)
    (hlen3 : hi.length = labels.length)
    (i : Nat) (hi2 : i < labels.length) :
    (confFrame prop labels lo hi).rows.filter (fun x => x.1 == labels.get ⟨i, hi2⟩)
      = [(labels.get ⟨i, hi2⟩,
          [("lower " ++ prop, lo.getD i Value.na), ("upper " ++ prop, hi.getD i Value.na)])] := by
  have hfst : (confFrame prop labels lo hi).rows.map Prod.fst = labels := by
    show ((labels.zip (lo.zip hi)).map _).map Prod.fst = labels
    rw [List.map_map]
    have hcongr : (labels.zip (lo.zip hi)).map
        (Prod.fst ∘ (fun p : Date × (Value × Value) =>
          (p.1, [("lower " ++ prop, p.2.1), ("upper " ++ prop, p.2.2)])))
        = (labels.zip (lo.zip hi)).map Prod.fst :=
      List.map_congr_left (fun p _ => rfl)
    rw [hcongr]
    apply List.map_fst_zip
    rw [List.length_zip]
    omega
  have hilo : i < lo.length := by omega
  have hihi : i < hi.length := by omega
  have hizz : i < (lo.zip hi).length := by
    rw [List.length_zip]
    omega
  have hiz : i < (labels.zip (lo.zip hi)).length := by
    rw [List.length_zip, List.length_zip]
    omega
  have hgetlo : lo.getD i Value.na = lo.get ⟨i, hilo⟩ := by
    simp [List.getD_eq_getElem?_getD, List.getElem?_eq_getElem hilo,
      List.get_eq_getElem]
  have hgethi : hi.getD i Value.na = hi.get ⟨i, hihi⟩ := by
    simp [List.getD_eq_getElem?_getD, List.getElem?_eq_getElem hihi,
      List.get_eq_getElem]
  have hrowlen : i < (confFrame prop labels lo hi).rows.length := by
    show i < ((labels.zip (lo.zip hi)).map _).length
    rw [List.length_map]
    exact hiz
  have hele : (confFrame prop labels lo hi).rows.get ⟨i, hrowlen⟩
      = (labels.get ⟨i, hi2⟩,
          [("lower " ++ prop, lo.getD i Value.na), ("upper " ++ prop, hi.getD i Value.na)]) := by
    show ((labels.zip (lo.zip hi)).map _).get ⟨i, hrowlen⟩ = _
    rw [List.get_eq_getElem, List.getElem_map, List.getElem_zip, List.getElem_zip]
    rw [hgetlo, hgethi]
    rfl
  have hmemrow : (labels.get ⟨i, hi2⟩,
      [("lower " ++ prop, lo.getD i Value.na), ("upper " ++ prop, hi.getD i Value.na)])
      ∈ (confFrame prop labels lo hi).rows := by
    rw [← hele]
    exact List.get_mem _ _ _
  exact filter_fst_eq_singleton (by rw [hfst]; exact hlabnd) hmemrow

/-- C7, witness: the historical 2022-12-31 value 8 survives a one-day
forecast assembly unchanged. -/
theorem C7_witness :
    ((get_prediction dfW "Total_reported" ⟨2022, 12, 30⟩ 1 [⟨2023, 1, 1⟩]
        [Value.int 7] [Value.int 3] [Value.int 11]).rows.filter
      (fun x => x.1 == (⟨2022, 12, 31⟩ : Date))).map (fun x => getCell x.2 "Total_reported")
      = [getCell [("Total_reported", Value.int 8)] "Total_reported"] :=
  C7_history_preserved dfW "Total_reported" ⟨2022, 12, 30⟩ 1 [⟨2023, 1, 1⟩]
    [Value.int 7] [Value.int 3] [Value.int 11]
    (by decide) (by decide) (by decide) ⟨2022, 12, 31⟩
    [("Total_reported", Value.int 8)] (by decide) (by decide)

/-- C8, counterexample to "one continuous series": at the forecast date
the metric column is missing while the forecasted mean sits in a separate
`predicted_mean` column, so the concatenation does not place historical
values and forecasted means in one series. -/
theorem C8_counterexample :
    ((get_prediction dfW "Total_reported" ⟨2022, 12, 30⟩ 1 [⟨2023, 1, 1⟩]
        [Value.int 7] [Value.int 3] [Value.int 11]).rows.filter
      (fun x => x.1 == (⟨2023, 1, 1⟩ : Date))).map
        (fun x => (getCell x.2 "Total_reported", getCell x.2 "predicted_mean"))
      = [(Value.na, Value.int 7)] := by
  decide


/-- C8, amended: `get_prediction` assembles one date-indexed frame from
the historical rows and the forecast rows, truncated to dates on or after
`from_date`; the historical metric values stay in the metric column while
the forecasted means form a separate `predicted_mean` column (missing on
historical rows, and the metric column is missing on forecast rows), with
the interval bounds attached by date.  Concretely: (1) each forecast date
on/after `from_date` yields exactly one row holding a missing metric
cell, the mean and the two bounds; (2) every returned row is dated
on/after `from_date`; (3) every returned row's date is a historical date
or a forecast label; (4) each historical date on/after `from_date` yields
exactly one row holding the input's metric value and a missing mean. -/
theorem C8_predict_assembles_and_truncates (df : Frame) (prop : String) (from_date : Date)
    (days : Nat) (row_labels : List Date) (pm lo hi : List Value)
    (hnodup : (df.rows.map Prod.fst).Nodup)
    (hlabnd : row_labels.Nodup)
    (hdisj : ∀ l ∈ row_labels, ¬ l ∈ df.rows.map Prod.fst)
    (hlen1 : pm.length = row_labels.length)
    (hlen2 : lo.length = row_labels.length)
    (hlen3 : hi.length = row_labels.length)
    (hprop : prop ∈ df.cols)
    (hpm : ¬ "predicted_mean" ∈ df.cols)
    (hlocol : ¬ ("lower " ++ prop) ∈ df.cols)
    (hhicol : ¬ ("upper " ++ prop) ∈ df.cols) :
    (∀ i (hi2 : i < row_labels.length),
      dateLe from_date (row_labels.get ⟨i, hi2⟩) = true →
      ((get_prediction df prop from_date days row_labels pm lo hi).rows.filter
          (fun x => x.1 == row_labels.get ⟨i, hi2⟩)).map
        (fun x => (getCell x.2 prop, getCell x.2 "predicted_mean",
          getCell x.2 ("lower " ++ prop), getCell x.2 ("upper " ++ prop)))
        = [(Value.na, pm.getD i Value.na, lo.getD i Value.na, hi.getD i Value.na)])
    ∧ (∀ x ∈ (get_prediction df prop from_date days row_labels pm lo hi).rows,
        dateLe from_date x.1 = true)
    ∧ (∀ x ∈ (get_prediction df prop from_date days row_labels pm lo hi).rows,
        x.1 ∈ df.rows.map Prod.fst ∨ x.1 ∈ row_labels)
    ∧ (∀ (d : Date) (r : Row), (d, r) ∈ df.rows → dateLe from_date d = true →
        (∀ q ∈ r, q.1 ∈ df.cols) →
        ((get_prediction df prop from_date days row_labels pm lo hi).rows.filter
            (fun x => x.1 == d)).map
          (fun x => (getCell x.2 prop, getCell x.2 "predicted_mean"))
          = [(getCell r prop, Value.na)]) := by
  have hpropne : prop ≠ "predicted_mean" := by
    intro hEq
    exact hpm (hEq ▸ hprop)
  have hUpm : "predicted_mean" ∈ unionCols df (forecastFrame row_labels pm) := by
    apply List.mem_append_right
    apply List.mem_filter.mpr
    exact ⟨List.mem_singleton.mpr rfl, by simp [hpm]⟩
  have hUmem : ∀ c2 ∈ unionCols df (forecastFrame row_labels pm),
      c2 ∈ df.cols ∨ c2 = "predicted_mean" := by
    intro c2 hc2
    rcases List.mem_append.mp hc2 with h1 | h2
    · exact Or.inl h1
    · exact Or.inr (List.mem_singleton.mp (List.mem_of_mem_filter h2))
  refine ⟨?_, ?_, ?_, ?_⟩
  · intro i hi2 hfromi
    have hdlab : row_labels.get ⟨i, hi2⟩ ∈ row_labels := List.get_mem _ _ _
    have hconf := confFrame_filter prop row_labels lo hi hlabnd hlen2 hlen3 i hi2
    have hfore := forecastFrame_filter row_labels pm hlabnd hlen1 i hi2
    have hdfnil : df.rows.filter (fun x => x.1 == row_labels.get ⟨i, hi2⟩) = [] := by
      apply List.filter_eq_nil_iff.mpr
      intro x hx hxd
      apply hdisj _ hdlab
      have hx1 : x.1 = row_labels.get ⟨i, hi2⟩ := by simpa using hxd
      rw [← hx1]
      exact List.mem_map_of_mem Prod.fst hx
    show (((joinFrames (concatFrames df (forecastFrame row_labels pm))
        (confFrame prop row_labels lo hi)).rows.filter
          (fun x => dateLe from_date x.1)).filter
            (fun x => x.1 == row_labels.get ⟨i, hi2⟩)).map _ = _
    rw [List.filter_filter]
    have hpred : ∀ x : Date × Row,
        x ∈ (joinFrames (concatFrames df (forecastFrame row_labels pm))
          (confFrame prop row_labels lo hi)).rows →
        ((x.1 == row_labels.get ⟨i, hi2⟩) && dateLe from_date x.1)
          = (x.1 == row_labels.get ⟨i, hi2⟩) := by
      intro x _
      by_cases hxd : (x.1 == row_labels.get ⟨i, hi2⟩) = true
      · have hx1 : x.1 = row_labels.get ⟨i, hi2⟩ := by simpa using hxd
        rw [hx1, hfromi]
        simp
      · have hxd2 : (x.1 == row_labels.get ⟨i, hi2⟩) = false := by simpa using hxd
        rw [hxd2, Bool.false_and]
    rw [List.filter_congr hpred]
    rw [joinFrames_filter_date_match hconf]
    have hconcatfilter : (concatFrames df (forecastFrame row_labels pm)).rows.filter
        (fun x => x.1 == row_labels.get ⟨i, hi2⟩)
        = [(row_labels.get ⟨i, hi2⟩,
            (unionCols df (forecastFrame row_labels pm)).map
              (fun c => (c, getCell [("predicted_mean", pm.getD i Value.na)] c)))] := by
      show (((df.rows ++ (forecastFrame row_labels pm).rows).map _).filter _) = _
      rw [List.filter_map]
      rw [show ((fun x : Date × Row => x.1 == row_labels.get ⟨i, hi2⟩) ∘
          (fun p : Date × Row => (p.1, (unionCols df (forecastFrame row_labels pm)).map
            (fun c => (c, getCell p.2 c)))))
          = (fun x : Date × Row => x.1 == row_labels.get ⟨i, hi2⟩) from rfl]
      rw [List.filter_append, hdfnil, hfore]
      rfl
    rw [hconcatfilter]
    rw [List.map_cons, List.map_nil, List.map_cons, List.map_nil]
    have hfirstne : ∀ (v : String), ¬ v ∈ df.cols → v ≠ "predicted_mean" →
        ∀ p ∈ (unionCols df (forecastFrame row_labels pm)).map
          (fun c => (c, getCell [("predicted_mean", pm.getD i Value.na)] c)), v ≠ p.1 := by
      intro v hv1 hv2 p hp heq
      obtain ⟨c2, hc2, rfl⟩ := List.mem_map.mp hp
      have heq2 : v = c2 := heq
      rcases hUmem c2 hc2 with h1 | h2
      · exact hv1 (heq2 ▸ h1)
      · exact hv2 (heq2.trans h2)
    have hg1 : getCell ((unionCols df (forecastFrame row_labels pm)).map
        (fun c => (c, getCell [("predicted_mean", pm.getD i Value.na)] c))
        ++ (confFrame prop row_labels lo hi).cols.map
          (fun c => (c, getCell [("lower " ++ prop, lo.getD i Value.na),
            ("upper " ++ prop, hi.getD i Value.na)] c))) prop = Value.na := by
      show ((List.lookup prop _).getD Value.na) = Value.na
      rw [lookup_append_left (lookup_map_getCell _
        (show prop ∈ unionCols df (forecastFrame row_labels pm) from
          List.mem_append_left _ hprop))]
      show getCell [("predicted_mean", pm.getD i Value.na)] prop = Value.na
      unfold getCell
      rw [List.lookup_cons, beq_false_of_ne hpropne]
      rfl
    have hg2 : getCell ((unionCols df (forecastFrame row_labels pm)).map
        (fun c => (c, getCell [("predicted_mean", pm.getD i Value.na)] c))
        ++ (confFrame prop row_labels lo hi).cols.map
          (fun c => (c, getCell [("lower " ++ prop, lo.getD i Value.na),
            ("upper " ++ prop, hi.getD i Value.na)] c))) "predicted_mean"
        = pm.getD i Value.na := by
      show ((List.lookup "predicted_mean" _).getD Value.na) = _
      rw [lookup_append_left (lookup_map_getCell _ hUpm)]
      rfl
    have hg3 : getCell ((unionCols df (forecastFrame row_labels pm)).map
        (fun c => (c, getCell [("predicted_mean", pm.getD i Value.na)] c))
        ++ (confFrame prop row_labels lo hi).cols.map
          (fun c => (c, getCell [("lower " ++ prop, lo.getD i Value.na),
            ("upper " ++ prop, hi.getD i Value.na)] c))) ("lower " ++ prop)
        = lo.getD i Value.na := by
      show ((List.lookup ("lower " ++ prop) _).getD Value.na) = _
      rw [lookup_append_right (hfirstne _ hlocol (lower_ne_predicted_mean prop))]
      rw [lookup_map_getCell _
        (show ("lower " ++ prop) ∈ (confFrame prop row_labels lo hi).cols from
          List.mem_cons_self _ _)]
      show getCell [("lower " ++ prop, lo.getD i Value.na),
        ("upper " ++ prop, hi.getD i Value.na)] ("lower " ++ prop) = _
      unfold getCell
      simp
    have hg4 : getCell ((unionCols df (forecastFrame row_labels pm)).map
        (fun c => (c, getCell [("predicted_mean", pm.getD i Value.na)] c))
        ++ (confFrame prop row_labels lo hi).cols.map
          (fun c => (c, getCell [("lower " ++ prop, lo.getD i Value.na),
            ("upper " ++ prop, hi.getD i Value.na)] c))) ("upper " ++ prop)
        = hi.getD i Value.na := by
      show ((List.lookup ("upper " ++ prop) _).getD Value.na) = _
      rw [lookup_append_right (hfirstne _ hhicol (upper_ne_predicted_mean prop))]
      rw [lookup_map_getCell _
        (show ("upper " ++ prop) ∈ (confFrame prop row_labels lo hi).cols from
          List.mem_cons_of_mem _ (List.mem_cons_self _ _))]
      show getCell [("lower " ++ prop, lo.getD i Value.na),
        ("upper " ++ prop, hi.getD i Value.na)] ("upper " ++ prop) = _
      unfold getCell
      rw [List.lookup_cons,
        beq_false_of_ne (fun h => lower_ne_upper prop h.symm)]
      simp
    rw [hg1, hg2, hg3, hg4]
  · intro x hx
    have hx2 : x ∈ (joinFrames (concatFrames df (forecastFrame row_labels pm))
        (confFrame prop row_labels lo hi)).rows.filter
          (fun p => dateLe from_date p.1) := hx
    exact (List.mem_filter.mp hx2).2
  · intro x hx
    have hx2 : x ∈ (joinFrames (concatFrames df (forecastFrame row_labels pm))
        (confFrame prop row_labels lo hi)).rows.filter
          (fun p => dateLe from_date p.1) := hx
    have hx3 := (List.mem_filter.mp hx2).1
    have hx4 : x ∈ (concatFrames df (forecastFrame row_labels pm)).rows.flatMap _ := hx3
    rw [List.mem_flatMap] at hx4
    obtain ⟨y, hy, hxy⟩ := hx4
    have hfst := joinStep_fst (confFrame prop row_labels lo hi) y x hxy
    obtain ⟨z, hz, rfl⟩ := List.mem_map.mp hy
    rw [hfst]
    rcases List.mem_append.mp hz with hdf | hfo
    · exact Or.inl (show z.1 ∈ List.map Prod.fst df.rows from
        List.mem_map_of_mem Prod.fst hdf)
    · right
      obtain ⟨w, hw, rfl⟩ := List.mem_map.mp hfo
      obtain ⟨wd, wv⟩ := w
      exact (List.of_mem_zip hw).1
  · intro d r hd hfrom hwfr
    have hdmem : d ∈ df.rows.map Prod.fst := List.mem_map_of_mem Prod.fst hd
    have hdlab2 : ¬ d ∈ row_labels := fun hl => hdisj d hl hdmem
    have hconf : (confFrame prop row_labels lo hi).rows.filter (fun q => q.1 == d) = [] := by
      apply List.filter_eq_nil_iff.mpr
      intro q hq hqd
      obtain ⟨z, hz, rfl⟩ := List.mem_map.mp hq
      obtain ⟨zd, zv⟩ := z
      have hz1 : zd ∈ row_labels := (List.of_mem_zip hz).1
      have hzd : zd = d := by simpa using hqd
      exact hdlab2 (hzd ▸ hz1)
    have hfore : (forecastFrame row_labels pm).rows.filter (fun q => q.1 == d) = [] := by
      apply List.filter_eq_nil_iff.mpr
      intro q hq hqd
      obtain ⟨z, hz, rfl⟩ := List.mem_map.mp hq
      obtain ⟨zd, zv⟩ := z
      have hz1 : zd ∈ row_labels := (List.of_mem_zip hz).1
      have hzd : zd = d := by simpa using hqd
      exact hdlab2 (hzd ▸ hz1)
    show (((joinFrames (concatFrames df (forecastFrame row_labels pm))
        (confFrame prop row_labels lo hi)).rows.filter
          (fun x => dateLe from_date x.1)).filter (fun x => x.1 == d)).map _ = _
    rw [List.filter_filter]
    have hpred : ∀ x : Date × Row,
        x ∈ (joinFrames (concatFrames df (forecastFrame row_labels pm))
          (confFrame prop row_labels lo hi)).rows →
        ((x.1 == d) && dateLe from_date x.1) = (x.1 == d) := by
      intro x _
      by_cases hxd : (x.1 == d) = true
      · have hx1 : x.1 = d := by simpa using hxd
        rw [hx1, hfrom]
        simp
      · have hxd2 : (x.1 == d) = false := by simpa using hxd
        rw [hxd2, Bool.false_and]
    rw [List.filter_congr hpred]
    rw [joinFrames_filter_date hconf]
    have hconcatfilter : (concatFrames df (forecastFrame row_labels pm)).rows.filter
        (fun x => x.1 == d)
        = [(d, (unionCols df (forecastFrame row_labels pm)).map
            (fun c => (c, getCell r c)))] := by
      show (((df.rows ++ (forecastFrame row_labels pm).rows).map _).filter _) = _
      rw [List.filter_map]
      have hinner : (df.rows ++ (forecastFrame row_labels pm).rows).filter
          (fun x => x.1 == d) = [(d, r)] := by
        rw [List.filter_append, hfore, filter_fst_eq_singleton hnodup hd]
        simp
      rw [show ((fun x : Date × Row => x.1 == d) ∘
          (fun p : Date × Row => (p.1, (unionCols df (forecastFrame row_labels pm)).map
            (fun c => (c, getCell p.2 c)))))
          = (fun x : Date × Row => x.1 == d) from rfl]
      rw [hinner]
      rfl
    rw [hconcatfilter]
    rw [List.map_cons, List.map_nil, List.map_cons, List.map_nil]
    have hg1 : getCell ((unionCols df (forecastFrame row_labels pm)).map
        (fun c => (c, getCell r c))
        ++ (confFrame prop row_labels lo hi).cols.map (fun c => (c, Value.na))) prop
        = getCell r prop := by
      show ((List.lookup prop _).getD Value.na) = getCell r prop
      rw [lookup_append_left (lookup_map_getCell r
        (show prop ∈ unionCols df (forecastFrame row_labels pm) from
          List.mem_append_left _ hprop))]
      rfl
    have hg2 : getCell ((unionCols df (forecastFrame row_labels pm)).map
        (fun c => (c, getCell r c))
        ++ (confFrame prop row_labels lo hi).cols.map (fun c => (c, Value.na)))
          "predicted_mean" = Value.na := by
      show ((List.lookup "predicted_mean" _).getD Value.na) = _
      rw [lookup_append_left (lookup_map_getCell r hUpm)]
      show getCell r "predicted_mean" = Value.na
      have hnone : r.lookup "predicted_mean" = none := by
        apply lookup_eq_none
        intro q hq heq
        exact hpm (heq ▸ hwfr q hq)
      unfold getCell
      rw [hnone]
      rfl
    rw [hg1, hg2]

/-- Witness for C8: on a concrete two-day history with one forecast label,
the assembled frame's forecast row carries a missing metric cell, the mean 7
and the bounds 3 and 11. -/
theorem C8_witness :
    ((get_prediction dfW "Total_reported" ⟨2022, 12, 30⟩ 1 [⟨2023, 1, 1⟩]
        [Value.int 7] [Value.int 3] [Value.int 11]).rows.filter
      (fun x => x.1 == (⟨2023, 1, 1⟩ : Date))).map
      (fun x => (getCell x.2 "Total_reported", getCell x.2 "predicted_mean",
        getCell x.2 ("lower " ++ "Total_reported"),
        getCell x.2 ("upper " ++ "Total_reported")))
      = [(Value.na, Value.int 7, Value.int 3, Value.int 11)] :=
  (C8_predict_assembles_and_truncates dfW "Total_reported" ⟨2022, 12, 30⟩ 1
    [⟨2023, 1, 1⟩] [Value.int 7] [Value.int 3] [Value.int 11]
    (by decide) (by decide) (by decide) (by decide) (by decide) (by decide)
    (by decide) (by decide) (by decide) (by decide)).1 0 (by decide) (by decide)
